import Mathlib

/-!
Verification of the query-generation pipeline of the `ai-runtime` service.

This file gives a shallow embedding, in Lean 4, of the parts of the code base
that the specification's checkable sentences are about:

* `agent/nodes/base.py`     — `_normalize_sql`, `_expand_with_related_tables`
* `agent/nodes/validator.py`— `sql_corrector`, `sql_validator_node` /
                              `native_schema_validator` (as an outcome oracle)
* `agent/query_pipeline.py` — `_check_schema_validation`, `_check_correction_result`
* `agent/nodes/schema.py`   — `schema_search` (scoring and refinement merge)
* `mcp_tools/sql_validator.py` — `SQLValidator.validate`
* `mcp_tools/dialect_translator.py` — `DialectTranslator.generate_sql` and the
                              filter/operator lowering helpers
* `agent/nodes.py`          — `_enforce_queryability` and the fully-blocked check
                              of `schema_validator`

External collaborators (the LLM, the live database, `sqlglot`'s parser and
`difflib`'s similarity ratio) are modelled as explicit oracle parameters, so
every theorem quantifies over their behaviour or pins it at a concrete value.

All machine integers of the source are small Python ints; scores are modelled
as `Rat` (Python floats in the source only ever hold sums of decimal literals
here, so exact rational arithmetic agrees with the float arithmetic on the
concrete inputs used in the witnesses).
-/

namespace AiRuntime

/-! ## Character-level utilities shared by the embeddings

Python's regular-expression character classes used by the source:
`\w` is `[A-Za-z0-9_]` (ASCII view, which is what the identifiers in play use)
and `\s` is `[ \t\n\r\f\v]`. -/

def isWordChar (c : Char) : Bool :=
  c.isAlpha || c.isDigit || c = '_'

def isWsChar (c : Char) : Bool :=
  c = ' ' || c = '\t' || c = '\n' || c = '\r' || c = '\x0b' || c = '\x0c'

/-- Python `str.lower()` on the ASCII identifiers in play. -/
def lowerStr (s : String) : String :=
  String.mk (s.data.map Char.toLower)

/-- Python `str.upper()` on ASCII. -/
def upperStr (s : String) : String :=
  String.mk (s.data.map Char.toUpper)

/-- Python `str.strip()` with no argument: drop `\s` characters at both ends. -/
def stripWs (cs : List Char) : List Char :=
  ((cs.dropWhile isWsChar).reverse.dropWhile isWsChar).reverse

def stripWsStr (s : String) : String :=
  String.mk (stripWs s.data)

/-- Python `str.rstrip(';')`. -/
def rstripSemi (cs : List Char) : List Char :=
  (cs.reverse.dropWhile (fun c => c = ';')).reverse

/-- Maximal runs of `\w` characters, i.e. Python `re.findall(r'\w+', s)` /
`re.findall(r'\b(\w+)\b', s)` (both produce exactly the maximal word runs). -/
def wordRuns : List Char → List String
  | [] => []
  | c :: rest =>
    if isWordChar c then
      match wordRuns rest with
      | [] => [String.mk [c]]
      | w :: ws =>
        -- glue onto the following run only if the next char continues it
        match rest with
        | [] => [String.mk [c]]
        | c' :: _ =>
          if isWordChar c' then (String.mk (c :: w.data)) :: ws
          else String.mk [c] :: (w :: ws)
    else wordRuns rest

/-- First-occurrence deduplication, matching Python `dict` key insertion order. -/
def firstDedupAux (seen : List String) : List String → List String
  | [] => []
  | a :: l => if a ∈ seen then firstDedupAux seen l else a :: firstDedupAux (a :: seen) l

def firstDedup (l : List String) : List String :=
  firstDedupAux [] l

/-! ### An association map with Python `dict` semantics

`insert` updates an existing key in place (keeping its position) and appends a
new key at the end; `values` lists values in key-insertion order.  This is the
behaviour the source relies on for `table_scores`, `table_by_name` and the
refinement-merge dictionaries. -/

structure PyDict (α : Type) where
  entries : List (String × α)
deriving Repr, DecidableEq

namespace PyDict

def empty {α : Type} : PyDict α := ⟨[]⟩

def insertEntry {α : Type} (k : String) (v : α) : List (String × α) → List (String × α)
  | [] => [(k, v)]
  | (k', v') :: rest =>
    if k' = k then (k', v) :: rest else (k', v') :: insertEntry k v rest

def insert {α : Type} (d : PyDict α) (k : String) (v : α) : PyDict α :=
  ⟨insertEntry k v d.entries⟩

def lookup {α : Type} (d : PyDict α) (k : String) : Option α :=
  (d.entries.find? (fun e => e.1 = k)).map (·.2)

def keys {α : Type} (d : PyDict α) : List String :=
  d.entries.map (·.1)

def values {α : Type} (d : PyDict α) : List α :=
  d.entries.map (·.2)

def ofList {α : Type} (l : List (String × α)) : PyDict α :=
  l.foldl (fun d e => d.insert e.1 e.2) empty

end PyDict

/-! ## `BaseNode._normalize_sql` (agent/nodes/base.py, lines 111-123)

```python
sql = re.sub(r'--.*$', '', sql, flags=re.MULTILINE)
sql = re.sub(r'/\x2a.*?\x2a/', '', sql, flags=re.DOTALL)
sql = sql.replace('\n', ' ').strip().lower()
sql = re.sub(r'\s+', ' ', sql)
sql = sql.rstrip(';')
```
-/

/-- Remove `--` line comments: from each `--` to the end of its line (the
newline itself is kept, as `.` does not match it). -/
def removeLineComments : Bool → List Char → List Char
  | _, [] => []
  | true, c :: r =>
    if c = '\n' then c :: removeLineComments false r else removeLineComments true r
  | false, '-' :: '-' :: r => removeLineComments true r
  | false, c :: r => c :: removeLineComments false r

/-- Scan for the closing `*/` of a block comment, returning the suffix after it. -/
def dropThroughClose : List Char → Option (List Char)
  | [] => none
  | '*' :: '/' :: r => some r
  | _ :: r => dropThroughClose r

/-- Remove non-greedy `/* ... */` block comments.  If a `/*` has no closing
`*/` anywhere after it, nothing from that point on can match, so the rest of
the string is kept verbatim (matching `re.sub` semantics). -/
def removeBlockCommentsAux : Nat → List Char → List Char
  | 0, l => l
  | _ + 1, [] => []
  | n + 1, '/' :: '*' :: r =>
    match dropThroughClose r with
    | some after => removeBlockCommentsAux n after
    | none => '/' :: '*' :: r
  | n + 1, c :: r => c :: removeBlockCommentsAux n r

def removeBlockComments (cs : List Char) : List Char :=
  removeBlockCommentsAux cs.length cs

/-- Collapse each maximal run of `\s` characters to a single space
(`re.sub(r'\s+', ' ', sql)`).  The flag records whether the previous
character was whitespace. -/
def collapseWsAux : Bool → List Char → List Char
  | _, [] => []
  | true, c :: r =>
    if isWsChar c then collapseWsAux true r else c :: collapseWsAux false r
  | false, c :: r =>
    if isWsChar c then ' ' :: collapseWsAux true r else c :: collapseWsAux false r

/-- `BaseNode._normalize_sql`: the normal form under which the corrector
compares a proposed fix with the failed SQL. -/
def normalize_sql (sql : String) : String :=
  let cs := removeLineComments false sql.data
  let cs := removeBlockComments cs
  let cs := cs.map (fun c => if c = '\n' then ' ' else c)
  let cs := stripWs cs
  let cs := cs.map Char.toLower
  let cs := collapseWsAux false cs
  String.mk (rstripSemi cs)

end AiRuntime

namespace AiRuntime.Pipeline

/-! ## The per-turn validation / correction loop

State machine for one user turn, from the first entry into
`native_schema_validator` after `query_builder`.  Nodes and routing follow
`query_pipeline.py` (`_build_graph`, `_check_schema_validation`,
`_check_correction_result`) and `agent/nodes/validator.py`
(`native_schema_validator` / `sql_validator_node`, `sql_corrector`).

The outcome of a full `native_schema_validator` run on a given SQL string
(sqlglot qualification + static checks + zero-row sandbox execution) is
abstracted as an oracle `validate : String → Verdict`; the LLM behind
`sql_corrector` is an oracle indexed by the number of LLM calls made so far.

Two counters are added to the state for specification purposes only:
`validations` counts executions of the validator node that actually validate
(the node short-circuits and returns `{}` when an error is already present),
and `llmCalls` counts corrector LLM invocations. -/

/-- Outcome of one real validation of a SQL string. -/
inductive Verdict where
  | ok
  | connErr (msg : String)
  | sqlErr (msg : String)
deriving DecidableEq, Repr

/-- Reply of the corrector LLM: a structured correction, a parse failure
(`if not response`), or a raised exception. -/
inductive CorrReply where
  | success (sql : String) (note : String)
  | parseFail
  | exn (msg : String)
deriving DecidableEq, Repr

inductive Node where
  | validator
  | corrector
  | composerDone
  | errorDone
deriving DecidableEq, Repr

structure LoopState where
  sql : String
  error : Option String
  correction_iteration : Nat
  is_connection_error : Bool
  validation_success : Bool
  node : Node
  validations : Nat
  llmCalls : Nat
deriving DecidableEq, Repr

structure Oracles where
  validate : String → Verdict
  correct : Nat → CorrReply

/-- `_check_schema_validation` (query_pipeline.py lines 289-308): connection
errors and missing SQL bypass the corrector ("valid"); an error or failed
validation routes to the corrector ("invalid").  In this loop SQL is always
present, so the missing-SQL branch is not exercised. -/
def routeAfterValidation (s : LoopState) : LoopState :=
  if s.is_connection_error then { s with node := .composerDone }
  else if s.error.isSome || s.validation_success = false then { s with node := .corrector }
  else { s with node := .composerDone }

/-- `native_schema_validator`: short-circuits when an error is already in the
state, otherwise performs a real validation of the current SQL; then the
conditional edge `_check_schema_validation` routes the result. -/
def validatorStep (o : Oracles) (s : LoopState) : LoopState :=
  if s.error.isSome then
    routeAfterValidation s
  else
    let s' :=
      match o.validate s.sql with
      | .ok =>
        { s with error := none, is_connection_error := false,
                 validation_success := true, validations := s.validations + 1 }
      | .connErr m =>
        { s with error := some ("Database connection error: " ++ m),
                 is_connection_error := true, validation_success := false,
                 validations := s.validations + 1 }
      | .sqlErr m =>
        { s with error := some m, is_connection_error := false,
                 validation_success := false, validations := s.validations + 1 }
    routeAfterValidation s'

/-- `_check_correction_result` (query_pipeline.py lines 313-326): on error,
retry while `correction_iteration < 3`, else terminal error; on no error,
back to the validator. -/
def routeAfterCorrection (s : LoopState) : LoopState :=
  if s.error.isSome then
    if s.correction_iteration < 3 then { s with node := .validator }
    else { s with node := .errorDone }
  else { s with node := .validator }

/-- `sql_corrector` (validator.py lines 129-211): refuse when
`correction_iteration >= 3`; otherwise call the LLM; a proposed fix that is
identical after `_normalize_sql` is rejected and counted as a failed attempt;
a genuine fix replaces the SQL, clears the error and counts the attempt.  A
parse failure or exception sets an error without counting an attempt. -/
def correctorStep (o : Oracles) (s : LoopState) : LoopState :=
  if s.correction_iteration ≥ 3 then
    let msg := "Correction failed after 3 attempt. Error: " ++
      (match s.error with | some m => m | none => "None")
    routeAfterCorrection { s with error := some msg }
  else
    match o.correct s.llmCalls with
    | .parseFail =>
      routeAfterCorrection
        { s with error := some "LLM failed to correct SQL", llmCalls := s.llmCalls + 1 }
    | .exn m =>
      routeAfterCorrection { s with error := some m, llmCalls := s.llmCalls + 1 }
    | .success newSql note =>
      if normalize_sql s.sql = normalize_sql newSql then
        routeAfterCorrection
          { s with
            error := some ("The correction you provided is identical to the failed SQL. You claimed to fix: "
              ++ note ++ ". Please actually apply the changes to the SQL code."),
            correction_iteration := s.correction_iteration + 1,
            llmCalls := s.llmCalls + 1 }
      else
        routeAfterCorrection
          { s with sql := newSql, error := none,
                   correction_iteration := s.correction_iteration + 1,
                   llmCalls := s.llmCalls + 1 }

def step (o : Oracles) (s : LoopState) : LoopState :=
  match s.node with
  | .validator => validatorStep o s
  | .corrector => correctorStep o s
  | .composerDone => s
  | .errorDone => s

def run (o : Oracles) : Nat → LoopState → LoopState
  | 0, s => s
  | n + 1, s => run o n (step o s)

/-- Initial loop state for one user turn: fresh SQL from `query_builder`,
`correction_iteration` reset to 0 (query_pipeline.py line 380). -/
def init (sql : String) : LoopState :=
  { sql := sql, error := none, correction_iteration := 0,
    is_connection_error := false, validation_success := false,
    node := .validator, validations := 0, llmCalls := 0 }

/-- Invariant used to bound the number of real validations per turn. -/
def Inv (s : LoopState) : Prop :=
  s.correction_iteration ≤ 3 ∧
    (s.validations ≤ s.correction_iteration + 1) ∧
    (s.node = .validator → s.error = none → s.validations ≤ s.correction_iteration)

theorem routeAfterValidation_fields (s : LoopState) :
    (routeAfterValidation s).correction_iteration = s.correction_iteration ∧
    (routeAfterValidation s).validations = s.validations ∧
    (routeAfterValidation s).error = s.error := by
  unfold routeAfterValidation
  split <;> try exact ⟨rfl, rfl, rfl⟩
  split <;> exact ⟨rfl, rfl, rfl⟩

theorem routeAfterValidation_node (s : LoopState) :
    (routeAfterValidation s).node = .corrector ∨
    (routeAfterValidation s).node = .composerDone := by
  unfold routeAfterValidation
  split
  · exact Or.inr rfl
  · split
    · exact Or.inl rfl
    · exact Or.inr rfl

theorem routeAfterCorrection_fields (s : LoopState) :
    (routeAfterCorrection s).correction_iteration = s.correction_iteration ∧
    (routeAfterCorrection s).validations = s.validations ∧
    (routeAfterCorrection s).error = s.error := by
  unfold routeAfterCorrection
  split
  · split <;> exact ⟨rfl, rfl, rfl⟩
  · exact ⟨rfl, rfl, rfl⟩

theorem step_preserves_Inv (o : Oracles) (s : LoopState) (h : Inv s) : Inv (step o s) := by
  obtain ⟨h3, hv, hvn⟩ := h
  cases hn : s.node with
  | composerDone =>
    have hstep : step o s = s := by unfold step; rw [hn]
    rw [hstep]
    exact ⟨h3, hv, fun hN _ => by rw [hn] at hN; cases hN⟩
  | errorDone =>
    have hstep : step o s = s := by unfold step; rw [hn]
    rw [hstep]
    exact ⟨h3, hv, fun hN _ => by rw [hn] at hN; cases hN⟩
  | validator =>
    have hstep : step o s = validatorStep o s := by unfold step; rw [hn]
    rw [hstep]
    unfold validatorStep
    cases hE : s.error with
    | some m =>
      rw [if_pos (by rfl)]
      obtain ⟨hc, hvv, herr⟩ := routeAfterValidation_fields s
      refine ⟨hc ▸ h3, by omega, ?_⟩
      intro _ hnone
      rw [herr, hE] at hnone
      cases hnone
    | none =>
      rw [if_neg (by simp)]
      have hvsmall : s.validations ≤ s.correction_iteration := hvn hn hE
      cases hval : o.validate s.sql with
      | ok =>
        dsimp only
        set s' : LoopState :=
          { s with error := none, is_connection_error := false,
                   validation_success := true, validations := s.validations + 1 } with hs'
        obtain ⟨hc, hvv, herr⟩ := routeAfterValidation_fields s'
        refine ⟨hc ▸ h3, by simp only [hc, hvv, hs']; omega, ?_⟩
        intro hN _
        rcases routeAfterValidation_node s' with h1 | h1
        · rw [hN] at h1; cases h1
        · rw [hN] at h1; cases h1
      | connErr m =>
        dsimp only
        set s' : LoopState :=
          { s with error := some ("Database connection error: " ++ m),
                   is_connection_error := true, validation_success := false,
                   validations := s.validations + 1 } with hs'
        obtain ⟨hc, hvv, herr⟩ := routeAfterValidation_fields s'
        refine ⟨hc ▸ h3, by simp only [hc, hvv, hs']; omega, ?_⟩
        intro _ hnone'
        rw [herr] at hnone'
        simp [hs'] at hnone'
      | sqlErr m =>
        dsimp only
        set s' : LoopState :=
          { s with error := some m, is_connection_error := false,
                   validation_success := false, validations := s.validations + 1 } with hs'
        obtain ⟨hc, hvv, herr⟩ := routeAfterValidation_fields s'
        refine ⟨hc ▸ h3, by simp only [hc, hvv, hs']; omega, ?_⟩
        intro _ hnone'
        rw [herr] at hnone'
        simp [hs'] at hnone'
  | corrector =>
    have hstep : step o s = correctorStep o s := by unfold step; rw [hn]
    rw [hstep]
    unfold correctorStep
    by_cases hge : s.correction_iteration ≥ 3
    · rw [if_pos hge]
      set s' : LoopState := { s with error := some ("Correction failed after 3 attempt. Error: " ++
        (match s.error with | some m => m | none => "None")) } with hs'
      obtain ⟨hc, hvv, herr⟩ := routeAfterCorrection_fields s'
      refine ⟨by simp only [hc, hs']; omega, by simp only [hc, hvv, hs']; omega, ?_⟩
      intro _ hnone'
      rw [herr] at hnone'
      simp [hs'] at hnone'
    · rw [if_neg hge]
      have hlt : s.correction_iteration < 3 := by omega
      cases hcr : o.correct s.llmCalls with
      | parseFail =>
        dsimp only
        set s' : LoopState :=
          { s with error := some "LLM failed to correct SQL", llmCalls := s.llmCalls + 1 } with hs'
        obtain ⟨hc, hvv, herr⟩ := routeAfterCorrection_fields s'
        refine ⟨by simp only [hc, hs']; omega, by simp only [hc, hvv, hs']; omega, ?_⟩
        intro _ hnone'
        rw [herr] at hnone'
        simp [hs'] at hnone'
      | exn m =>
        dsimp only
        set s' : LoopState := { s with error := some m, llmCalls := s.llmCalls + 1 } with hs'
        obtain ⟨hc, hvv, herr⟩ := routeAfterCorrection_fields s'
        refine ⟨by simp only [hc, hs']; omega, by simp only [hc, hvv, hs']; omega, ?_⟩
        intro _ hnone'
        rw [herr] at hnone'
        simp [hs'] at hnone'
      | success newSql note =>
        dsimp only
        by_cases hid : normalize_sql s.sql = normalize_sql newSql
        · rw [if_pos hid]
          set s' : LoopState :=
            { s with
              error := some ("The correction you provided is identical to the failed SQL. You claimed to fix: "
                ++ note ++ ". Please actually apply the changes to the SQL code."),
              correction_iteration := s.correction_iteration + 1,
              llmCalls := s.llmCalls + 1 } with hs'
          obtain ⟨hc, hvv, herr⟩ := routeAfterCorrection_fields s'
          refine ⟨by simp only [hc, hs']; omega, by simp only [hc, hvv, hs']; omega, ?_⟩
          intro _ hnone'
          rw [herr] at hnone'
          simp [hs'] at hnone'
        · rw [if_neg hid]
          set s' : LoopState :=
            { s with sql := newSql, error := none,
                     correction_iteration := s.correction_iteration + 1,
                     llmCalls := s.llmCalls + 1 } with hs'
          obtain ⟨hc, hvv, herr⟩ := routeAfterCorrection_fields s'
          refine ⟨by simp only [hc, hs']; omega, by simp only [hc, hvv, hs']; omega, ?_⟩
          intro _ _
          simp only [hc, hvv, hs']
          omega

theorem run_preserves_Inv (o : Oracles) (fuel : Nat) (s : LoopState) (h : Inv s) :
    Inv (run o fuel s) := by
  induction fuel generalizing s with
  | zero => exact h
  | succ n ih => exact ih (step o s) (step_preserves_Inv o s h)

theorem init_Inv (sql : String) : Inv (init sql) := by
  refine ⟨by simp [init], by simp [init], fun _ _ => by simp [init]⟩

theorem terminal_step (o : Oracles) (s : LoopState)
    (h : s.node = .composerDone ∨ s.node = .errorDone) : step o s = s := by
  rcases h with h | h <;> simp [step, h]

theorem terminal_run (o : Oracles) (fuel : Nat) (s : LoopState)
    (h : s.node = .composerDone ∨ s.node = .errorDone) : run o fuel s = s := by
  induction fuel with
  | zero => rfl
  | succ n ih => rw [run, terminal_step o s h, ih]

end AiRuntime.Pipeline

namespace AiRuntime

open Pipeline

/-- Oracle behaviour exhibiting the longest possible correction loop: every
validation reports a SQL error and the corrector always proposes a fresh,
textually different statement. -/
def failingOracles : Oracles where
  validate := fun _ => .sqlErr "Schema Error: Column not found"
  correct := fun n => .success ("SELECT " ++ toString n) "fix"

/-- C1, counterexample.  With the oracle above, the turn starting from
`SELECT c FROM t` performs 4 real compile/validate attempts (the first
validation plus one re-validation after each of the 3 corrections admitted by
`correction_iteration >= 3` / `correction_iteration < 3` in
`sql_corrector` and `_check_correction_result`), refuting the claimed bound
of 3 total attempts. -/
theorem c1_counterexample :
    (run failingOracles 12 (init "SELECT c FROM t")).validations = 4 ∧
    ¬ ((run failingOracles 12 (init "SELECT c FROM t")).validations ≤ 3) := by
  have h : (run failingOracles 12 (init "SELECT c FROM t")).validations = 4 := by rfl
  exact ⟨h, by rw [h]; decide⟩

/-- C1 (amended): for every single user turn the correction loop executes at
most 4 total compile/validate attempts (the first compile plus up to 3
corrections), and a proposed fix that is textually identical to the failed SQL
after `_normalize_sql` normalization is always rejected (an error is recorded)
and counted as a failed attempt (`correction_iteration` is incremented). -/
theorem c1_correction_loop_bound :
    (∀ (o : Oracles) (fuel : Nat) (sql : String),
        (run o fuel (init sql)).validations ≤ 4) ∧
    (∀ (o : Oracles) (s : LoopState) (newSql note : String),
        s.node = .corrector →
        s.correction_iteration < 3 →
        o.correct s.llmCalls = .success newSql note →
        normalize_sql newSql = normalize_sql s.sql →
        (step o s).error.isSome = true ∧
        (step o s).correction_iteration = s.correction_iteration + 1) := by
  constructor
  · intro o fuel sql
    have hInv := run_preserves_Inv o fuel (init sql) (init_Inv sql)
    obtain ⟨h3, hv, _⟩ := hInv
    omega
  · intro o s newSql note hnode hlt hcr hid
    have hstep : step o s = correctorStep o s := by unfold step; rw [hnode]
    rw [hstep]
    unfold correctorStep
    rw [if_neg (by omega)]
    rw [hcr]
    dsimp only
    rw [if_pos hid.symm]
    set s' : LoopState :=
      { s with
        error := some ("The correction you provided is identical to the failed SQL. You claimed to fix: "
          ++ note ++ ". Please actually apply the changes to the SQL code."),
        correction_iteration := s.correction_iteration + 1,
        llmCalls := s.llmCalls + 1 } with hs'
    obtain ⟨hc, _, herr⟩ := routeAfterCorrection_fields s'
    constructor
    · rw [herr]; rfl
    · rw [hc]

/-- Concrete oracle for the C1 witness: the corrector proposes a fix that
differs only by a trailing semicolon, which `_normalize_sql` strips. -/
def idfixOracles : Oracles where
  validate := fun _ => .sqlErr "Schema Error"
  correct := fun _ => .success "SELECT a;" "note"

/-- Concrete mid-loop state for the C1 witness. -/
def idfixState : LoopState :=
  { sql := "SELECT a", error := some "Schema Error", correction_iteration := 0,
    is_connection_error := false, validation_success := false,
    node := .corrector, validations := 1, llmCalls := 0 }

theorem c1_witness :
    ((run idfixOracles 5 (init "SELECT a")).validations ≤ 4) ∧
    ((step idfixOracles idfixState).error.isSome = true ∧
     (step idfixOracles idfixState).correction_iteration = idfixState.correction_iteration + 1) :=
  ⟨c1_correction_loop_bound.1 idfixOracles 5 "SELECT a",
   c1_correction_loop_bound.2 idfixOracles idfixState "SELECT a;" "note" rfl
     (by decide) rfl (by rfl)⟩

/-- C4: if the sandbox check fails with a database connection failure, the run
terminates immediately at the response path (`_check_schema_validation`
returns "valid", bypassing the corrector): the final state carries the
connection-error outcome, the corrector LLM is never invoked, the
correction-iteration counter remains 0, and exactly one validation ran. -/
theorem c4_connection_error_immediate (o : Oracles) (sql msg : String) (fuel : Nat)
    (hconn : o.validate sql = .connErr msg) (hfuel : 1 ≤ fuel) :
    (run o fuel (init sql)).node = .composerDone ∧
    (run o fuel (init sql)).is_connection_error = true ∧
    (run o fuel (init sql)).error = some ("Database connection error: " ++ msg) ∧
    (run o fuel (init sql)).correction_iteration = 0 ∧
    (run o fuel (init sql)).llmCalls = 0 ∧
    (run o fuel (init sql)).validations = 1 := by
  obtain ⟨k, rfl⟩ : ∃ k, fuel = k + 1 := ⟨fuel - 1, by omega⟩
  have hstep : step o (init sql) =
      { sql := sql, error := some ("Database connection error: " ++ msg),
        correction_iteration := 0, is_connection_error := true,
        validation_success := false, node := .composerDone,
        validations := 1, llmCalls := 0 } := by
    unfold step init validatorStep routeAfterValidation
    simp [hconn]
  have hrun : run o (k + 1) (init sql) =
      { sql := sql, error := some ("Database connection error: " ++ msg),
        correction_iteration := 0, is_connection_error := true,
        validation_success := false, node := .composerDone,
        validations := 1, llmCalls := 0 } := by
    rw [run, hstep]
    exact terminal_run o k _ (Or.inl rfl)
  rw [hrun]
  exact ⟨rfl, rfl, rfl, rfl, rfl, rfl⟩

/-- Concrete oracle for the C4 witness: the sandbox reports an explicit
`DATABASE_CONNECTION_ERROR` (displayed as a timeout). -/
def connOracles : Oracles where
  validate := fun _ => .connErr "connection timeout"
  correct := fun _ => .success "SELECT 1" "unreached"

theorem c4_witness :
    (run connOracles 3 (init "SELECT 1")).node = .composerDone ∧
    (run connOracles 3 (init "SELECT 1")).is_connection_error = true ∧
    (run connOracles 3 (init "SELECT 1")).error =
      some ("Database connection error: " ++ "connection timeout") ∧
    (run connOracles 3 (init "SELECT 1")).correction_iteration = 0 ∧
    (run connOracles 3 (init "SELECT 1")).llmCalls = 0 ∧
    (run connOracles 3 (init "SELECT 1")).validations = 1 :=
  c4_connection_error_immediate connOracles "SELECT 1" "connection timeout" 3 rfl (by decide)

end AiRuntime

namespace AiRuntime.SqlValidator

/-! ## `SQLValidator.validate` (mcp_tools/sql_validator.py, lines 68-145)

The sqlglot parse of step 1 is an external library call and is abstracted as
an oracle `parse_ok : String → Bool` (`sqlglot.parse_one` raising `ParseError`
maps to `false`; note that on input holding several `;`-separated statements
`parse_one` parses them all and returns the first, i.e. it succeeds).  The
`forbidden_fields` argument of the source is modelled in its default
configuration (`None` / empty list), under which step 4 contributes no
errors.  `lint_sql` (step 2 of `sql_validator_node`) returns `[]`
unconditionally in the source and is therefore not modelled. -/

/-- `FORBIDDEN_KEYWORDS` (sql_validator.py lines 36-42), each keyword split at
blanks since the search pattern replaces a space by `\s+`. -/
def FORBIDDEN_KEYWORDS : List (List String) :=
  [["DELETE"], ["UPDATE"], ["INSERT"], ["DROP"], ["ALTER"], ["TRUNCATE"],
   ["CREATE"], ["GRANT"], ["REVOKE"], ["EXECUTE"], ["EXEC"],
   ["INTO", "OUTFILE"], ["INTO", "DUMPFILE"], ["LOAD_FILE"],
   ["INFORMATION_SCHEMA"], ["PG_CATALOG"], ["MYSQL"],
   ["SLEEP"], ["BENCHMARK"], ["WAITFOR"]]

/-- Literal prefix match returning the unconsumed suffix. -/
def matchLit : List Char → List Char → Option (List Char)
  | [], cs => some cs
  | _, [] => none
  | p :: ps, c :: cs => if p = c then matchLit ps cs else none

/-- One-or-more `\s` characters (maximal munch; every use site is followed by
a non-whitespace literal, so maximal munch is equivalent to backtracking). -/
def matchWsPlus (cs : List Char) : Option (List Char) :=
  let rest := cs.dropWhile isWsChar
  if rest.length < cs.length then some rest else none

/-- Does the keyword word sequence match at this position, with `\s+` between
words and a `\b` boundary after the last word? -/
def matchKwWords : List String → List Char → Bool
  | [], cs =>
    match cs with
    | [] => true
    | c :: _ => !isWordChar c
  | w :: ws, cs =>
    match matchLit w.data cs with
    | none => false
    | some rest =>
      match ws with
      | [] =>
        (match rest with
         | [] => true
         | c :: _ => !isWordChar c)
      | _ :: _ =>
        match matchWsPlus rest with
        | some rest' => matchKwWords ws rest'
        | none => false

/-- `re.search(r'\b' + kw.replace(' ', r'\s+') + r'\b', sql_upper)`: a match
at any position whose preceding character (if any) is not a word character. -/
def kwSearch (ws : List String) : Option Char → List Char → Bool
  | _, [] => false
  | prev, c :: rest =>
    ((match prev with | none => true | some p => !isWordChar p)
      && matchKwWords ws (c :: rest))
    || kwSearch ws (some c) rest

/-- Items of the `DANGEROUS_PATTERNS` regexes (sql_validator.py lines 44-53):
literals, `\s*`, `\s+` and `[^']*`, all of whose uses admit maximal munch. -/
inductive PatItem where
  | lit (s : String)
  | wsStar
  | wsPlus
  | notQuoteStar
deriving Repr

def matchItems : List PatItem → List Char → Bool
  | [], _ => true
  | .lit s :: ps, cs =>
    match matchLit s.data cs with
    | some rest => matchItems ps rest
    | none => false
  | .wsStar :: ps, cs => matchItems ps (cs.dropWhile isWsChar)
  | .wsPlus :: ps, cs =>
    match matchWsPlus cs with
    | some rest => matchItems ps rest
    | none => false
  | .notQuoteStar :: ps, cs => matchItems ps (cs.dropWhile (fun c => c ≠ '\''))

def patSearch (ps : List PatItem) (cs : List Char) : Bool :=
  cs.tails.any (matchItems ps)

/-- `r'/\x2a.*\x2a/'` : a `/*` followed, with no intervening newline (`.`
does not match `\n`), by a `*/`. -/
def findCloseNoNl : List Char → Bool
  | '*' :: '/' :: _ => true
  | '\n' :: _ => false
  | _ :: r => findCloseNoNl r
  | [] => false

def blockCommentSearch (cs : List Char) : Bool :=
  cs.tails.any fun t =>
    match t with
    | '/' :: '*' :: r => findCloseNoNl r
    | _ => false

/-- `DANGEROUS_PATTERNS`, searched case-insensitively over the uppercased SQL
(hence the uppercase literals). -/
def dangerousHit (cs : List Char) : Bool :=
  patSearch [.lit ";", .wsStar, .lit "--"] cs
  || blockCommentSearch cs
  || patSearch [.lit "UNION", .wsPlus, .lit "ALL", .wsPlus, .lit "SELECT"] cs
  || patSearch [.lit "OR", .wsPlus, .lit "1", .wsStar, .lit "=", .wsStar, .lit "1"] cs
  || patSearch [.lit "OR", .wsPlus, .lit "'", .notQuoteStar, .lit "'",
                .wsStar, .lit "=", .wsStar, .lit "'", .notQuoteStar, .lit "'"] cs
  || patSearch [.lit "EXEC", .wsStar, .lit "("] cs
  || patSearch [.lit "XP_CMDSHELL"] cs
  || patSearch [.lit "SP_EXECUTESQL"] cs

def digitsToNat (ds : List Char) : Nat :=
  ds.foldl (fun acc c => acc * 10 + (c.toNat - '0'.toNat)) 0

/-- `re.search(r'\bLIMIT\s+(\d+)', sql_upper)`: the first match's number. -/
def limitSearch : Option Char → List Char → Option Nat
  | _, [] => none
  | prev, c :: rest =>
    let here : Option Nat :=
      if (match prev with | none => true | some p => !isWordChar p) then
        match matchLit "LIMIT".data (c :: rest) with
        | some r1 =>
          match matchWsPlus r1 with
          | some r2 =>
            let ds := r2.takeWhile Char.isDigit
            if ds.isEmpty then none else some (digitsToNat ds)
          | none => none
        | none => none
      else none
    match here with
    | some v => some v
    | none => limitSearch (some c) rest

structure VResult where
  is_valid : Bool
  errors : List String
  warnings : List String
deriving Repr, DecidableEq

/-- `SQLValidator.validate` with `forbidden_fields` empty; `max_limit` is
10000 (`__init__`).  `is_valid` is recomputed from the error list at the end
(line 144), matching the source. -/
def validate (parse_ok : String → Bool) (sql : String) : VResult :=
  if stripWsStr sql = "" then
    { is_valid := false, errors := ["SQL query is empty"], warnings := [] }
  else if ¬ parse_ok sql then
    { is_valid := false, errors := ["Syntax error"], warnings := [] }
  else
    let up := (upperStr sql).data
    let kwErrors := FORBIDDEN_KEYWORDS.filterMap fun ws =>
      if kwSearch ws none up then
        some ("Forbidden keyword detected: " ++ String.intercalate " " ws)
      else none
    let dangErrors := if dangerousHit up then ["Dangerous SQL pattern detected"] else []
    let selErrors :=
      if "SELECT".data.isPrefixOf (stripWs up) then [] else ["Only SELECT queries are allowed"]
    let semiErrors :=
      if sql.data.count ';' > 1 then ["Multiple statements not allowed"] else []
    let (limitErrors, limitWarnings) :=
      match limitSearch none up with
      | some v =>
        (if v > 10000 then ["LIMIT exceeds maximum allowed (10000)"] else [], ([] : List String))
      | none => ([], ["No LIMIT clause found. Consider adding one."])
    let errors := kwErrors ++ dangErrors ++ selErrors ++ semiErrors ++ limitErrors
    { is_valid := errors.isEmpty, errors := errors, warnings := limitWarnings }

/-- Split a character list at every `;`. -/
def splitSemis : List Char → List (List Char)
  | [] => [[]]
  | ';' :: r => [] :: splitSemis r
  | c :: r =>
    match splitSemis r with
    | [] => [[c]]
    | s :: ss => (c :: s) :: ss

/-- The claim's notion of a single statement (spec wording, for comparison
with the code): splitting on `;` leaves at most one non-blank segment. -/
def singleStatementSpec (sql : String) : Bool :=
  ((splitSemis sql.data).filter (fun seg => stripWs seg ≠ [])).length ≤ 1

/-- The claim's read-only requirements that the code does enforce, stated from
the spec's words: begins with SELECT and has none of the nine data-modifying
or privilege keywords as a word. -/
def readOnlyKeywordsSpec (sql : String) : Bool :=
  let up := (upperStr sql).data
  "SELECT".data.isPrefixOf (stripWs up)
  && !(["DELETE", "UPDATE", "INSERT", "DROP", "ALTER", "TRUNCATE",
        "CREATE", "GRANT", "REVOKE"].any (fun k => kwSearch [k] none up))

end AiRuntime.SqlValidator

namespace AiRuntime

/-- C5: the static validator accepts `"SELECT 1; SELECT 2"` — two
`;`-separated statements — because its multiple-statement guard only rejects
more than one semicolon (`sql.count(';') > 1`), even though its own error
message states "Multiple statements not allowed".  The parse oracle is `true`
here because `sqlglot.parse_one` parses both statements and returns the first.
The read-only keyword part of the claim does hold on this input. -/
theorem c5_multie_statement_accepted :
    (SqlValidator.validate (fun _ => true) "SELECT 1; SELECT 2").is_valid = true ∧
    SqlValidator.singleStatementSpec "SELECT 1; SELECT 2" = false ∧
    SqlValidator.readOnlyKeywordsSpec "SELECT 1; SELECT 2" = true := by
  refine ⟨by rfl, by rfl, by rfl⟩

end AiRuntime

namespace AiRuntime

/-! ## Shared data model

`SchemaCatalog` snapshot (tables / columns / relationships with queryability
flags) and the canonical query dictionary produced by the query builder, as
consumed by `dialect_translator.py` and `agent/nodes.py`.  Only the fields the
embedded functions read are modelled.  Python values arriving from the LLM's
JSON are scalars or flat lists of scalars; `Value.list` plays the role of
`isinstance(value, (list, tuple))`. -/

structure Column where
  name : String
  type : String := "varchar"
  isQueryable : Bool := true
deriving Repr, DecidableEq

structure Table where
  name : String
  isQueryable : Bool := true
  columns : List Column := []
deriving Repr, DecidableEq

structure Relationship where
  sourceTable : String
  sourceColumn : String
  targetTable : String
  targetColumn : String
deriving Repr, DecidableEq

structure Schema where
  tables : List Table := []
  relationships : List Relationship := []
deriving Repr, DecidableEq

inductive Scalar where
  | sNull
  | sBool (b : Bool)
  | sInt (n : Int)
  | sStr (s : String)
deriving Repr, DecidableEq

inductive Value where
  | scalar (s : Scalar)
  | list (vs : List Scalar)
deriving Repr, DecidableEq

structure TableRef where
  name : String
  aliasName : Option String := none
deriving Repr, DecidableEq

structure JoinOn where
  left_column : String := ""
  operator : String := "="
  right_column : String := ""
deriving Repr, DecidableEq

structure Join where
  table : String
  aliasName : Option String := none
  type : String := "INNER"
  onCond : JoinOn := {}
deriving Repr, DecidableEq

structure ColumnSpec where
  column : String
  aggregate : Option String := none
  aliasName : Option String := none
deriving Repr, DecidableEq

structure FilterSpec where
  column : String := ""
  operator : String := "="
  value : Value := .scalar .sNull
deriving Repr, DecidableEq

/-- A canonical-query filter is either a raw predicate string or a structured
`{column, operator, value}` dictionary. -/
inductive Filter where
  | raw (s : String)
  | structured (f : FilterSpec)
deriving Repr, DecidableEq

structure OrderBySpec where
  column : String
  direction : String := "ASC"
deriving Repr, DecidableEq

structure CanonicalQuery where
  primary_table : TableRef
  joins : List Join := []
  columns : List ColumnSpec := []
  filters : List Filter := []
  group_by : List String := []
  order_by : List OrderBySpec := []
  limit : Option Int := none
  offset : Option Int := none
deriving Repr, DecidableEq

/-- Substring containment on character lists. -/
def listContainsSub (needle hay : List Char) : Bool :=
  hay.tails.any (fun t => needle.isPrefixOf t)

end AiRuntime

namespace AiRuntime.Translator

/-! ## `DialectTranslator.generate_sql` (mcp_tools/dialect_translator.py)

The source builds a SQLAlchemy Core statement and compiles it with literal
binds.  The embedding mirrors the stages: `buildStmt` performs everything
`generate_sql` does up to `stmt` construction (steps 1-8, including the
helpers `_resolve_sqla_column`, `_sqla_column`, `_sqla_operator`,
`_sqla_filter`, `_is_boolean_column`) and additionally records the
compile-state FROM list SQLAlchemy derives: besides the explicit
`select_from`/join chain, every qualified reference in the select list or
the WHERE criteria whose qualifier is outside the alias map contributes a
fresh `table(...)` object to the FROM clause (`_determine_froms` walks
`_from_obj`, then the raw columns, then the where criteria; group-by and
order-by elements do not contribute).  `renderStmt` models the compilation
to text (clause order and content; whitespace is normalised to single
spaces where SQLAlchemy would emit newlines), rendering each accessory FROM
entry as a comma-separated item after the join chain — the display froms
after identity deduplication and removal of chain members hidden by the
join.  `renderStmt` is the clause text of a compile whose literal binds all
render; `generate_sql_checked` adds the literal-binds validity pass:
`stmt.compile(..., literal_binds=True)` raises for a bind whose value is a
Python list (its type resolves to `NullType`, which has no literal
processor), and `generate_sql_checked` returns `none` exactly then.

The `ValueError` raised when `primary_table` is missing is not representable
here because the Lean record always carries a primary table; the structurally
invalid case is outside every claim. -/

/-- A SQLAlchemy `table(...)` or `table(...).alias(...)` object: rendering
qualifies columns by the alias when present, else by the table name. -/
structure SqlaTable where
  name : String
  aliasName : Option String := none
deriving Repr, DecidableEq

/-- Result of `_resolve_sqla_column`: `None` for an empty reference, `text`
for `*` and operator-bearing expressions, a bound table column, or a bare
column. -/
inductive SqlaCol where
  | missing
  | star
  | textExpr (s : String)
  | tableCol (t : SqlaTable) (col : String)
  | bareCol (name : String)
deriving Repr, DecidableEq

/-- `any(op in col_ref for op in (" ", "(", ")", "+", "-", "*", "/", "||"))`. -/
def hasExprChars (s : String) : Bool :=
  s.data.any (fun c => c = ' ' || c = '(' || c = ')' || c = '+' || c = '-' || c = '*' || c = '/')
  || listContainsSub "||".data s.data

/-- Python `s.split(".", 1)`: the part before the first `.` and the rest. -/
def splitFirstDotAux : List Char → Option (List Char × List Char)
  | [] => none
  | '.' :: r => some ([], r)
  | c :: r =>
    match splitFirstDotAux r with
    | some (a, b) => some (c :: a, b)
    | none => none

def splitFirstDot (s : String) : Option (String × String) :=
  (splitFirstDotAux s.data).map (fun p => (String.mk p.1, String.mk p.2))

/-- `_resolve_sqla_column` (dialect_translator.py lines 190-221). -/
def resolve_sqla_column (col_ref : String) (tables : PyDict SqlaTable) : SqlaCol :=
  if col_ref = "" then .missing
  else if col_ref = "*" then .star
  else if hasExprChars col_ref then .textExpr col_ref
  else
    match splitFirstDot col_ref with
    | some (table_alias, col_name) =>
      match tables.lookup table_alias with
      | some t => .tableCol t col_name
      | none => .tableCol { name := table_alias } col_name
    | none => .bareCol col_ref

/-- `re.search(rf"\b{agg}\s*\(", col_ref, re.IGNORECASE)`: the aggregate name
at a word boundary, optional whitespace, then `(`. -/
def aggAlreadyApplied (agg : String) (col_ref : String) : Bool :=
  let pat := (upperStr agg).data
  let scan : Option Char → List Char → Bool := fun prev cs =>
    (match prev with | none => true | some p => !isWordChar p) &&
      (match SqlValidator.matchLit pat cs with
       | some rest => (rest.dropWhile isWsChar).head? = some '('
       | none => false)
  let rec go : Option Char → List Char → Bool
    | _, [] => false
    | prev, c :: rest => scan prev (c :: rest) || go (some c) rest
  go none (upperStr col_ref).data

/-- `re.match(r"^(\w+)\s*\((.+)\)$", col_ref.strip(), re.IGNORECASE)`: a
leading word run, optional whitespace, `(`, a non-empty newline-free body,
and a closing `)` at the end of the (stripped) string.  Returns the function
name and the body. -/
def matchTopLevelCall (stripped : List Char) : Option (String × String) :=
  let w := stripped.takeWhile isWordChar
  if w.isEmpty then none
  else
    let rest := (stripped.drop w.length).dropWhile isWsChar
    match rest with
    | '(' :: body =>
      match body.reverse with
      | ')' :: revMid =>
        let mid := revMid.reverse
        if mid.isEmpty || mid.any (fun c => c = '\n') then none
        else some (String.mk w, String.mk mid)
      | _ => none
    | _ => none

/-- One select-list entry after `_sqla_column` processing: the resolved
column, an optional aggregate wrapper (the lowercase name fed to
`getattr(func, ...)`), a DISTINCT flag and an optional label. -/
structure SelectExpr where
  col : SqlaCol
  aggFunc : Option String := none
  isDistinct : Bool := false
  label : Option String := none
deriving Repr, DecidableEq

/-- The preprocessing of `_sqla_column` before the reference is resolved:
duplicate-aggregate unwrap, top-level `FUNCTION(arg)` extraction out of the
column string, and leading-`DISTINCT` strip.  Returns the settled
(aggregate, column reference, DISTINCT flag). -/
def sqlaColumnPre (col_data : ColumnSpec) : Option String × String × Bool :=
  let col_ref := col_data.column
  let agg := col_data.aggregate
  -- duplicate-aggregate unwrap
  let agg := match agg with
    | some a => if aggAlreadyApplied a col_ref then none else some a
    | none => none
  -- top-level FUNCTION(arg) typed into the column string
  let (agg, col_ref) :=
    if agg = none && col_ref ≠ "" && col_ref.data.any (fun c => c = '(')
        && (match (stripWs col_ref.data).reverse with | ')' :: _ => true | _ => false) then
      match matchTopLevelCall (stripWs col_ref.data) with
      | some (fn, body) => (some (upperStr fn), stripWsStr body)
      | none => (agg, col_ref)
    else (agg, col_ref)
  -- leading DISTINCT token
  let (is_distinct, col_ref) :=
    if "DISTINCT ".data.isPrefixOf (upperStr col_ref).data then
      (true, stripWsStr (String.mk (col_ref.data.drop 9)))
    else (false, col_ref)
  (agg, col_ref, is_distinct)

/-- `_sqla_column` (dialect_translator.py lines 223-273).  In the DISTINCT
branch the source calls `getattr(func, agg_func.lower())` directly; the
`var -> variance` name mapping is applied only in the non-DISTINCT branch. -/
def sqla_column (col_data : ColumnSpec) (tables : PyDict SqlaTable) : SelectExpr :=
  let pre := sqlaColumnPre col_data
  let agg := pre.1
  let col_ref := pre.2.1
  let is_distinct := pre.2.2
  let c := resolve_sqla_column col_ref tables
  let aggFunc := agg.map (fun a =>
    if is_distinct then lowerStr a
    else
      let fn := lowerStr a
      if fn = "var" then "variance" else fn)
  { col := c, aggFunc := aggFunc, isDistinct := is_distinct, label := col_data.aliasName }

/-- The right-hand side handed to `_sqla_operator`: a column (join `ON`
conditions) or a Python value (filters). -/
inductive Operand where
  | col (c : SqlaCol)
  | val (v : Value)
deriving Repr, DecidableEq

/-- A lowered SQLAlchemy boolean clause.  `cmp "=" l r` is the Python
`left == right` (SQLAlchemy renders `x = NULL` comparisons as `IS NULL`; the
constructor records the operator applied, which is what the claims are
about). -/
inductive SqlaExpr where
  | cmp (op : String) (left : SqlaCol) (right : Operand)
  | likeE (left : SqlaCol) (right : Operand)
  | ilikeE (left : SqlaCol) (right : Operand)
  | inList (left : SqlaCol) (vs : List Scalar)
  | betweenE (left : SqlaCol) (lo hi : Scalar)
  | isNullE (left : SqlaCol)
  | isNotNullE (left : SqlaCol)
  | rawText (s : String)
deriving Repr, DecidableEq

/-- `_sqla_operator` (dialect_translator.py lines 275-296), dispatching on the
uppercased operator exactly in source order.  `IN` with a right-hand side that
is not a list/tuple, and `BETWEEN` with one that is not a two-element
list/tuple, fall back to `left == right`. -/
def sqla_operator (left : SqlaCol) (op : String) (right : Operand) : SqlaExpr :=
  match upperStr op, right with
  | "=", r => .cmp "=" left r
  | "!=", r => .cmp "!=" left r
  | "<>", r => .cmp "!=" left r
  | ">", r => .cmp ">" left r
  | "<", r => .cmp "<" left r
  | ">=", r => .cmp ">=" left r
  | "<=", r => .cmp "<=" left r
  | "LIKE", r => .likeE left r
  | "ILIKE", r => .ilikeE left r
  | "IN", .val (.list vs) => .inList left vs
  | "IN", r => .cmp "=" left r
  | "BETWEEN", .val (.list [a, b]) => .betweenE left a b
  | "BETWEEN", r => .cmp "=" left r
  | "IS", .val (.scalar .sNull) => .isNullE left
  | "IS", r => .cmp "=" left r
  | "IS NOT", .val (.scalar .sNull) => .isNotNullE left
  | "IS NOT", r => .cmp "!=" left r
  | o, _ => .rawText o

/-- Python `s.strip("()")`: remove `(` / `)` characters from both ends. -/
def stripParens (cs : List Char) : List Char :=
  ((cs.dropWhile (fun c => c = '(' || c = ')')).reverse.dropWhile
    (fun c => c = '(' || c = ')')).reverse

/-- Python `s.strip(q)` for a single quote character. -/
def stripCharEnds (q : Char) (cs : List Char) : List Char :=
  ((cs.dropWhile (fun c => c = q)).reverse.dropWhile (fun c => c = q)).reverse

/-- Split a character list at every `,`. -/
def splitCommas : List Char → List (List Char)
  | [] => [[]]
  | ',' :: r => [] :: splitCommas r
  | c :: r =>
    match splitCommas r with
    | [] => [[c]]
    | s :: ss => (c :: s) :: ss

/-- `[v.strip().strip("'").strip('"') for v in value.strip("()").split(",")]`
(dialect_translator.py line 316). -/
def parseInString (s : String) : List Scalar :=
  (splitCommas (stripParens s.data)).map (fun seg =>
    .sStr (String.mk (stripCharEnds '"' (stripCharEnds '\'' (stripWs seg)))))

/-- `_is_boolean_column` (dialect_translator.py lines 331-339). -/
def is_boolean_column (column_ref : String) (schema : Option Schema) : Bool :=
  match schema with
  | none => false
  | some sc =>
    if column_ref = "" then false
    else
      let col_name :=
        if column_ref.data.any (fun c => c = '.') then
          match splitFirstDotLast column_ref.data with
          | s => String.mk s
        else column_ref
      match (sc.tables.flatMap (fun t => t.columns)).find?
          (fun c => lowerStr c.name = lowerStr col_name) with
      | some c => lowerStr c.type = "boolean" || lowerStr c.type = "bool"
          || lowerStr c.type = "tinyint(1)"
      | none => false
where
  /-- Python `column_ref.split(".")[-1]`: the segment after the last dot. -/
  splitFirstDotLast (cs : List Char) : List Char :=
    ((cs.reverse.takeWhile (fun c => c ≠ '.'))).reverse

/-- `str(value).lower() in ("1", "true", "t", "yes")` applied to int/str
values of a boolean-typed column (dialect_translator.py lines 319-327). -/
def coerceBoolScalar : Scalar → Scalar
  | .sBool b => .sBool b
  | .sInt n => .sBool (n = 1)
  | .sStr s => .sBool (lowerStr s = "1" || lowerStr s = "true" || lowerStr s = "t" || lowerStr s = "yes")
  | .sNull => .sNull

def coerceBoolValue : Value → Value
  | .scalar s => .scalar (coerceBoolScalar s)
  | .list vs => .list vs

/-- The `"NULL"`-string-to-`None` conversion of `_sqla_filter`
(dialect_translator.py lines 308-309). -/
def nullStringConv (value : Value) : Value :=
  match value with
  | .scalar (.sStr s) => if upperStr s = "NULL" then .scalar .sNull else value
  | _ => value

/-- The string-to-list parsing `_sqla_filter` applies to `IN` values
(dialect_translator.py lines 314-316). -/
def inStringParse (value : Value) : Value :=
  match value with
  | .scalar (.sStr s) => .list (parseInString s)
  | _ => value

/-- `_sqla_filter` (dialect_translator.py lines 298-329): raw predicate
strings pass through as `text`; structured filters go through the "NULL"
conversion, column resolution, `IN`-string parsing, boolean coercion and
operator lowering, in source order. -/
def sqla_filter (f : Filter) (tables : PyDict SqlaTable) (schema : Option Schema) : SqlaExpr :=
  match f with
  | .raw s => .rawText s
  | .structured fs =>
    let operator := upperStr fs.operator
    let value := nullStringConv fs.value
    let left := resolve_sqla_column fs.column tables
    let value := if operator = "IN" then inStringParse value else value
    let value := if is_boolean_column fs.column schema then coerceBoolValue value else value
    sqla_operator left operator (.val value)

structure SqlaJoin where
  table : SqlaTable
  kind : String
  onClause : SqlaExpr
deriving Repr, DecidableEq

/-- The `_from_objects` contribution of one resolved column reference to the
statement's FROM list: a dotted reference whose qualifier is not a key of the
alias map resolves to a column attached to a FRESH `table(qualifier)` object
(dialect_translator.py lines 214-218), which SQLAlchemy's compile state then
adds to the FROM clause; every other resolution result — a registry table
(already hidden by the join chain), a bare column, `*`, or a `text(...)`
expression — contributes nothing.  The branch structure mirrors
`_resolve_sqla_column`. -/
def resolvedColFrom (col_ref : String) (tables : PyDict SqlaTable) : List String :=
  if col_ref = "" then []
  else if col_ref = "*" then []
  else if hasExprChars col_ref then []
  else
    match splitFirstDot col_ref with
    | some (table_alias, _) =>
      match tables.lookup table_alias with
      | some _ => []
      | none => [table_alias]
    | none => []

/-- FROM-list contribution of one WHERE filter: raw string filters become
`text(...)` (no from objects); a structured filter contributes its left
column's resolution (the bound value carries no from objects). -/
def filterFrom (tables : PyDict SqlaTable) : Filter → List String
  | .raw _ => []
  | .structured fs => resolvedColFrom fs.column tables

/-- The alias map of `generate_sql` steps 1-2: `alias or name` keys for the
primary table and each join, later joins overwriting earlier keys. -/
def tablesOf (q : CanonicalQuery) : PyDict SqlaTable :=
  let t1 : SqlaTable := { name := q.primary_table.name, aliasName := q.primary_table.aliasName }
  q.joins.foldl
    (fun tbls j => tbls.insert (j.aliasName.getD j.table) { name := j.table, aliasName := j.aliasName })
    (PyDict.empty.insert (q.primary_table.aliasName.getD q.primary_table.name) t1)

/-- The accessory FROM entries of the compile state, in SQLAlchemy's
traversal order (raw select columns first, then the where criteria); each
occurrence is a distinct fresh table object, so repeats are kept.  Group-by
and order-by elements are not walked by `_determine_froms`.  The column
reference inspected is the one `_sqla_column` settles on after its
preprocessing (an empty select list yields the placeholder `text(...)`,
which contributes nothing). -/
def accessoryFromsOf (q : CanonicalQuery) (tables : PyDict SqlaTable) : List String :=
  q.columns.flatMap (fun c => resolvedColFrom (sqlaColumnPre c).2.1 tables)
    ++ q.filters.flatMap (filterFrom tables)

structure SqlaSelect where
  selectCols : List SelectExpr
  fromTable : SqlaTable
  joins : List SqlaJoin
  whereFilters : List SqlaExpr
  groupBy : List SqlaCol
  orderBy : List (SqlaCol × Bool)
  limit : Option Int
  offset : Option Int
  accessoryFroms : List String
deriving Repr, DecidableEq

/-- The placeholder select list used when no queryable column remains
(dialect_translator.py lines 118-119). -/
def placeholderCol : SelectExpr :=
  { col := .textExpr "1 /* No queryable columns found */" }

/-- Steps 1-8 of `generate_sql`: alias-map construction, select columns (with
the empty-list placeholder), joins, filters, group by, order by, limit and
offset (`if offset:` is Python truthiness, so offset 0 is not applied), plus
the compile-state accessory FROM entries. -/
def buildStmt (q : CanonicalQuery) (schema : Option Schema) : SqlaSelect :=
  let t1 : SqlaTable := { name := q.primary_table.name, aliasName := q.primary_table.aliasName }
  let tables := tablesOf q
  let selectCols := q.columns.map (fun c => sqla_column c tables)
  let selectCols := if selectCols.isEmpty then [placeholderCol] else selectCols
  let joins := q.joins.map (fun j =>
    let tj : SqlaTable := { name := j.table, aliasName := j.aliasName }
    let left := resolve_sqla_column j.onCond.left_column tables
    let right := resolve_sqla_column j.onCond.right_column tables
    { table := tj, kind := upperStr j.type,
      onClause := sqla_operator left j.onCond.operator (.col right) })
  { selectCols := selectCols
    fromTable := t1
    joins := joins
    whereFilters := q.filters.map (fun f => sqla_filter f tables schema)
    groupBy := q.group_by.map (fun g => resolve_sqla_column g tables)
    orderBy := q.order_by.map (fun o =>
      (resolve_sqla_column o.column tables, "DESC".data.isPrefixOf (upperStr o.direction).data))
    limit := q.limit
    offset := match q.offset with
      | some v => if v = 0 then none else some v
      | none => none
    accessoryFroms := accessoryFromsOf q tables }

def renderTable (t : SqlaTable) : String :=
  match t.aliasName with
  | some a => t.name ++ " AS " ++ a
  | none => t.name

def renderCol : SqlaCol → String
  | .missing => "NULL"
  | .star => "*"
  | .textExpr s => s
  | .tableCol t c => (t.aliasName.getD t.name) ++ "." ++ c
  | .bareCol n => n

def escapeSqlStr (s : String) : String :=
  String.mk (s.data.flatMap (fun c => if c = '\'' then ['\'', '\''] else [c]))

def renderScalar (dialect : String) : Scalar → String
  | .sNull => "NULL"
  | .sBool b =>
    if dialect = "mysql" then (if b then "1" else "0") else (if b then "true" else "false")
  | .sInt n => toString n
  | .sStr s => "'" ++ escapeSqlStr s ++ "'"

def renderOperand (dialect : String) : Operand → String
  | .col c => renderCol c
  | .val (.scalar s) => renderScalar dialect s
  | .val (.list vs) => "(" ++ String.intercalate ", " (vs.map (renderScalar dialect)) ++ ")"

def renderExpr (dialect : String) : SqlaExpr → String
  | .cmp op l r =>
    (match r with
     | .val (.scalar .sNull) =>
       if op = "=" then renderCol l ++ " IS NULL"
       else if op = "!=" then renderCol l ++ " IS NOT NULL"
       else renderCol l ++ " " ++ op ++ " NULL"
     | _ => renderCol l ++ " " ++ op ++ " " ++ renderOperand dialect r)
  | .likeE l r => renderCol l ++ " LIKE " ++ renderOperand dialect r
  | .ilikeE l r =>
    if dialect = "mysql" then
      "lower(" ++ renderCol l ++ ") LIKE lower(" ++ renderOperand dialect r ++ ")"
    else renderCol l ++ " ILIKE " ++ renderOperand dialect r
  | .inList l vs => renderCol l ++ " IN (" ++ String.intercalate ", " (vs.map (renderScalar dialect)) ++ ")"
  | .betweenE l a b =>
    renderCol l ++ " BETWEEN " ++ renderScalar dialect a ++ " AND " ++ renderScalar dialect b
  | .isNullE l => renderCol l ++ " IS NULL"
  | .isNotNullE l => renderCol l ++ " IS NOT NULL"
  | .rawText s => s

def renderSelectExpr (e : SelectExpr) : String :=
  let base := renderCol e.col
  let body :=
    match e.aggFunc, e.isDistinct with
    | some fn, true => fn ++ "(DISTINCT " ++ base ++ ")"
    | some fn, false => fn ++ "(" ++ base ++ ")"
    | none, true => "DISTINCT " ++ base
    | none, false => base
  match e.label with
  | some l => body ++ " AS " ++ l
  | none => body

/-- The join keyword SQLAlchemy emits: `.outerjoin` renders `LEFT OUTER
JOIN` (used for both LEFT and, per the source's simplified mapping, RIGHT),
`full=True` renders `FULL OUTER JOIN`, and plain `.join` renders `JOIN`. -/
def joinKeyword (kind : String) : String :=
  if kind = "LEFT" then "LEFT OUTER JOIN"
  else if kind = "RIGHT" then "LEFT OUTER JOIN"
  else if kind = "FULL" then "FULL OUTER JOIN"
  else "JOIN"

/-- Rendering of the built statement: the select list, the FROM clause —
the explicit join chain first, then one comma-separated entry per accessory
fresh table (SQLAlchemy's display froms after removing chain members hidden
by the join) — then WHERE/GROUP BY/ORDER BY/LIMIT/OFFSET.  This is the
clause text of a compile whose literal binds all render;
`generate_sql_checked` models the literal-binds failure. -/
def renderStmt (dialect : String) (st : SqlaSelect) : String :=
  "SELECT " ++ String.intercalate ", " (st.selectCols.map renderSelectExpr)
    ++ " FROM "
    ++ (renderTable st.fromTable
      ++ String.join (st.joins.map (fun j =>
          " " ++ joinKeyword j.kind ++ " " ++ renderTable j.table
            ++ " ON " ++ renderExpr dialect j.onClause))
      ++ String.join (st.accessoryFroms.map (fun n => ", " ++ n))
      ++ (if st.whereFilters.isEmpty then ""
          else " WHERE " ++ String.intercalate " AND " (st.whereFilters.map (renderExpr dialect)))
      ++ (if st.groupBy.isEmpty then ""
          else " GROUP BY " ++ String.intercalate ", " (st.groupBy.map renderCol))
      ++ (if st.orderBy.isEmpty then ""
          else " ORDER BY " ++ String.intercalate ", " (st.orderBy.map (fun p =>
            renderCol p.1 ++ (if p.2 then " DESC" else " ASC"))))
      ++ (match st.limit with | some v => " LIMIT " ++ toString v | none => "")
      ++ (match st.offset with | some v => " OFFSET " ++ toString v | none => ""))

/-- `generate_sql(canonical_query, dialect, schema)`: the clause text of the
compiled statement (see `generate_sql_checked` for the compile that can
raise). -/
def generate_sql (q : CanonicalQuery) (dialect : String := "postgresql")
    (schema : Option Schema := none) : String :=
  renderStmt dialect (buildStmt q schema)

/-- Does every literal bind of the clause have a literal renderer?
`stmt.compile(..., literal_binds=True)` raises for a bind parameter whose
value is a Python list: `_resolve_value_to_type` maps a list to `NullType`,
which has no literal processor, so the compiler raises instead of emitting
the clause.  That happens exactly when a list value sits in a single-bind
position — the right-hand side of a comparison or (I)LIKE.  Scalar binds
render (str/int/bool literals); `None` is coerced to a `NULL` element at
expression construction, not bound; `IN` lists and `BETWEEN` bounds bind
their elements individually, which in this model are scalars. -/
def literalBindsOk : SqlaExpr → Bool
  | .cmp _ _ (.val (.list _)) => false
  | .likeE _ (.val (.list _)) => false
  | .ilikeE _ (.val (.list _)) => false
  | _ => true

/-- Step 9 of `generate_sql`: the `literal_binds=True` compilation.  Returns
the rendered SQL when every bind of the ON and WHERE clauses renders, and
`none` when the compiler raises (select columns, group-by and order-by
entries are column expressions and carry no binds). -/
def generate_sql_checked (q : CanonicalQuery) (dialect : String := "postgresql")
    (schema : Option Schema := none) : Option String :=
  let st := buildStmt q schema
  if st.joins.all (fun j => literalBindsOk j.onClause)
      && st.whereFilters.all literalBindsOk then
    some (renderStmt dialect st)
  else none

end AiRuntime.Translator

namespace AiRuntime

open Translator

/-- Is a lowered filter clause a plain equality comparison (`left == right`)? -/
def isEqCmp : SqlaExpr → Bool
  | .cmp "=" _ _ => true
  | _ => false

def isListVal : Value → Bool
  | .list _ => true
  | _ => false

def isStrVal : Value → Bool
  | .scalar (.sStr _) => true
  | _ => false

def isTwoEltList : Value → Bool
  | .list vs => vs.length == 2
  | _ => false

/-- A one-table catalog used by the C3 counterexample. -/
def ordersOnly : Schema :=
  { tables := [{ name := "orders",
                 columns := [{ name := "id" }, { name := "total" }] }] }

/-- C8: a canonical query whose column list is empty compiles to a
selection of the constant placeholder `1 /* No queryable columns found */`
(dialect_translator.py lines 118-119) — well-formed SQL rather than an empty
select list — so downstream stages detect "nothing to select"
deterministically. -/
theorem c8_empty_columns_placeholder (q : CanonicalQuery) (dialect : String)
    (schema : Option Schema) (h : q.columns = []) :
    (buildStmt q schema).selectCols = [placeholderCol] ∧
    ∃ rest, generate_sql q dialect schema =
      "SELECT 1 /* No queryable columns found */ FROM " ++ rest := by
  have hsel : (buildStmt q schema).selectCols = [placeholderCol] := by
    simp [buildStmt, h]
  refine ⟨hsel, ?_⟩
  unfold generate_sql renderStmt
  rw [hsel]
  exact ⟨_, rfl⟩

/-- Concrete empty-column query for the C8 witness. -/
def noColsQuery : CanonicalQuery :=
  { primary_table := { name := "orders" }, columns := [] }

theorem c8_witness :
    (buildStmt noColsQuery (some ordersOnly)).selectCols = [placeholderCol] ∧
    ∃ rest, generate_sql noColsQuery "postgresql" (some ordersOnly) =
      "SELECT 1 /* No queryable columns found */ FROM " ++ rest :=
  c8_empty_columns_placeholder noColsQuery "postgresql" (some ordersOnly) rfl

/-- The C10 counterexample filter: `IN` with a plain string value. -/
def inStrFilter : FilterSpec :=
  { column := "status", operator := "IN", value := .scalar (.sStr "a, b") }

/-- C10, counterexample.  An `IN` filter whose value is the string
`"a, b"` — not a list or tuple — is not emitted as an equality comparison:
`_sqla_filter` first splits the string on commas into a list and emits a
genuine `IN` clause. -/
theorem c10_counterexample :
    sqla_filter (.structured inStrFilter) PyDict.empty none =
      .inList (.bareCol "status") [.sStr "a", .sStr "b"] ∧
    isEqCmp (sqla_filter (.structured inStrFilter) PyDict.empty none) = false := by
  refine ⟨rfl, rfl⟩

theorem nullStringConv_of_ne (s : String) (h : ¬ upperStr s = "NULL") :
    nullStringConv (.scalar (.sStr s)) = .scalar (.sStr s) := by
  show (if upperStr s = "NULL" then Value.scalar .sNull else Value.scalar (.sStr s)) = _
  rw [if_neg h]

theorem isEqCmp_in_scalar (left : SqlaCol) (c : Bool) (x : Scalar) :
    isEqCmp (sqla_operator left "IN"
      (.val (if c = true then coerceBoolValue (.scalar x) else .scalar x))) = true := by
  cases c
  · rw [if_neg (by decide)]; cases x <;> rfl
  · rw [if_pos rfl]; cases x <;> rfl

theorem isEqCmp_between_nonpair (left : SqlaCol) (c : Bool) (v : Value)
    (h : isTwoEltList v = false) :
    isEqCmp (sqla_operator left "BETWEEN"
      (.val (if c = true then coerceBoolValue v else v))) = true := by
  cases c
  · rw [if_neg (by decide)]
    cases v with
    | scalar x => cases x <;> rfl
    | list vs =>
      match vs, h with
      | [], _ => rfl
      | [a], _ => rfl
      | a :: b :: d :: r, _ => rfl
  · rw [if_pos rfl]
    cases v with
    | scalar x => cases x <;> rfl
    | list vs =>
      match vs, h with
      | [], _ => rfl
      | [a], _ => rfl
      | a :: b :: d :: r, _ => rfl

theorem isTwoEltList_nullStringConv (v : Value) (h : isTwoEltList v = false) :
    isTwoEltList (nullStringConv v) = false := by
  cases v with
  | list vs => exact h
  | scalar x =>
    cases x with
    | sStr s =>
      show isTwoEltList (if upperStr s = "NULL" then Value.scalar .sNull
        else Value.scalar (.sStr s)) = false
      by_cases hn : upperStr s = "NULL"
      · rw [if_pos hn]; rfl
      · rw [if_neg hn]; rfl
    | sNull => rfl
    | sBool b => rfl
    | sInt n => rfl

theorem isListVal_nullStringConv (v : Value) (h : isListVal v = false) :
    isListVal (nullStringConv v) = false := by
  cases v with
  | list vs => exact h
  | scalar x =>
    cases x with
    | sStr s =>
      show isListVal (if upperStr s = "NULL" then Value.scalar .sNull
        else Value.scalar (.sStr s)) = false
      by_cases hn : upperStr s = "NULL"
      · rw [if_pos hn]; rfl
      · rw [if_neg hn]; rfl
    | sNull => rfl
    | sBool b => rfl
    | sInt n => rfl

theorem isTwoEltList_of_not_list (v : Value) (h : isListVal v = false) :
    isTwoEltList v = false := by
  cases v with
  | list vs => simp [isListVal] at h
  | scalar x => rfl

theorem literalBindsOk_between_nonlist (left : SqlaCol) (c : Bool) (v : Value)
    (h : isListVal v = false) :
    literalBindsOk (sqla_operator left "BETWEEN"
      (.val (if c = true then coerceBoolValue v else v))) = true := by
  cases c
  · rw [if_neg (by decide)]
    cases v with
    | scalar x => cases x <;> rfl
    | list vs => simp [isListVal] at h
  · rw [if_pos rfl]
    cases v with
    | scalar x => cases x <;> rfl
    | list vs => simp [isListVal] at h

theorem literalBindsOk_between_list (left : SqlaCol) (c : Bool) (vs : List Scalar)
    (h : (vs.length == 2) = false) :
    literalBindsOk (sqla_operator left "BETWEEN"
      (.val (if c = true then coerceBoolValue (.list vs) else .list vs))) = false := by
  cases c
  · rw [if_neg (by decide)]
    match vs, h with
    | [], _ => rfl
    | [a], _ => rfl
    | a :: b :: d :: r, _ => rfl
  · rw [if_pos rfl]
    rw [show coerceBoolValue (.list vs) = Value.list vs from rfl]
    match vs, h with
    | [], _ => rfl
    | [a], _ => rfl
    | a :: b :: d :: r, _ => rfl

/-- A filter whose lowered clause has an unrenderable literal bind makes the
whole compile raise: `generate_sql_checked` returns `none`. -/
theorem generate_sql_checked_none_of_filter (q : CanonicalQuery) (dialect : String)
    (schema : Option Schema) (f : Filter) (hf : f ∈ q.filters)
    (hbad : literalBindsOk (sqla_filter f (tablesOf q) schema) = false) :
    generate_sql_checked q dialect schema = none := by
  have hw : (buildStmt q schema).whereFilters.all literalBindsOk = false := by
    have hmem : sqla_filter f (tablesOf q) schema ∈ (buildStmt q schema).whereFilters := by
      simp only [buildStmt]
      exact List.mem_map_of_mem _ hf
    cases hall : (buildStmt q schema).whereFilters.all literalBindsOk
    · rfl
    · have hx := List.all_eq_true.mp hall _ hmem
      rw [hbad] at hx
      exact absurd hx Bool.false_ne_true
  simp only [generate_sql_checked, hw, Bool.and_false]
  rfl

/-- C10 (amended): an `IN` filter whose value is neither a list/tuple nor a
string lowers to a plain equality comparison; a `BETWEEN` filter whose value
is not a list/tuple also lowers to a plain equality, and its scalar literal
renders, so that filter compiles; but a `BETWEEN` filter whose value is a
list of length ≠ 2 lowers to an equality against the LIST value, whose
literal bind has no renderer — compilation of any query carrying such a
filter raises (`generate_sql_checked = none`) rather than emitting
`column = value`; finally, an `IN` filter whose value is a (non-`"NULL"`)
string is split on commas into a list of strings and lowered to a genuine
`IN` clause. -/
theorem c10_in_between_lowering (tables : PyDict SqlaTable) (schema : Option Schema)
    (col : String) (v : Value) :
    (isListVal v = false → isStrVal v = false →
      isEqCmp (sqla_filter (.structured { column := col, operator := "IN", value := v })
        tables schema) = true) ∧
    (isListVal v = false →
      isEqCmp (sqla_filter (.structured { column := col, operator := "BETWEEN", value := v })
        tables schema) = true ∧
      literalBindsOk (sqla_filter (.structured { column := col, operator := "BETWEEN", value := v })
        tables schema) = true) ∧
    (∀ vs, v = .list vs → vs.length ≠ 2 →
      isEqCmp (sqla_filter (.structured { column := col, operator := "BETWEEN", value := v })
        tables schema) = true ∧
      ∀ (q : CanonicalQuery) (dialect : String) (qschema : Option Schema),
        (.structured { column := col, operator := "BETWEEN", value := v }) ∈ q.filters →
        generate_sql_checked q dialect qschema = none) ∧
    (∀ s, v = .scalar (.sStr s) → ¬ upperStr s = "NULL" →
      sqla_filter (.structured { column := col, operator := "IN", value := v }) tables schema =
        .inList (resolve_sqla_column col tables) (parseInString s)) := by
  refine ⟨?_, ?_, ?_, ?_⟩
  · intro hl hs
    cases v with
    | list vs => simp [isListVal] at hl
    | scalar x =>
      cases x with
      | sStr s => simp [isStrVal] at hs
      | sNull =>
        exact isEqCmp_in_scalar (resolve_sqla_column col tables) (is_boolean_column col schema) .sNull
      | sBool b =>
        exact isEqCmp_in_scalar (resolve_sqla_column col tables) (is_boolean_column col schema) (.sBool b)
      | sInt n =>
        exact isEqCmp_in_scalar (resolve_sqla_column col tables) (is_boolean_column col schema) (.sInt n)
  · intro hl
    have h2 : isTwoEltList v = false := isTwoEltList_of_not_list v hl
    refine ⟨?_, ?_⟩
    · exact isEqCmp_between_nonpair (resolve_sqla_column col tables)
        (is_boolean_column col schema) (nullStringConv v) (isTwoEltList_nullStringConv v h2)
    · exact literalBindsOk_between_nonlist (resolve_sqla_column col tables)
        (is_boolean_column col schema) (nullStringConv v) (isListVal_nullStringConv v hl)
  · intro vs hveq hlen
    subst hveq
    have h2 : isTwoEltList (Value.list vs) = false := beq_false_of_ne hlen
    refine ⟨?_, ?_⟩
    · exact isEqCmp_between_nonpair (resolve_sqla_column col tables)
        (is_boolean_column col schema) (Value.list vs) h2
    · intro q dialect qschema hmem
      exact generate_sql_checked_none_of_filter q dialect qschema _ hmem
        (literalBindsOk_between_list (resolve_sqla_column col (tablesOf q))
          (is_boolean_column col qschema) vs h2)
  · intro s hveq hnull
    subst hveq
    show sqla_operator (resolve_sqla_column col tables) (upperStr "IN")
      (.val (if is_boolean_column col schema
             then coerceBoolValue (inStringParse (nullStringConv (.scalar (.sStr s))))
             else inStringParse (nullStringConv (.scalar (.sStr s))))) = _
    rw [nullStringConv_of_ne s hnull]
    rw [show inStringParse (.scalar (.sStr s)) = .list (parseInString s) from rfl]
    rw [show coerceBoolValue (.list (parseInString s)) = .list (parseInString s) from rfl]
    rw [ite_self]
    rfl

/-- Concrete filters for the C10 witness. -/
def inIntFilter : FilterSpec :=
  { column := "total", operator := "IN", value := .scalar (.sInt 7) }

def betweenIntFilter : FilterSpec :=
  { column := "total", operator := "BETWEEN", value := .scalar (.sInt 5) }

def inStrFilter2 : FilterSpec :=
  { column := "total", operator := "IN", value := .scalar (.sStr "x, y") }

/-- A `BETWEEN` filter with a three-element list value. -/
def betweenListFilter : FilterSpec :=
  { column := "total", operator := "BETWEEN", value := .list [.sInt 1, .sInt 2, .sInt 3] }

/-- A query carrying `betweenListFilter`: its literal-bind compilation fails. -/
def betweenListQuery : CanonicalQuery :=
  { primary_table := { name := "orders" }
  , columns := [{ column := "total" }]
  , filters := [.structured betweenListFilter] }

theorem c10_witness :
    isEqCmp (sqla_filter (.structured inIntFilter) PyDict.empty (some ordersOnly)) = true ∧
    (isEqCmp (sqla_filter (.structured betweenIntFilter) PyDict.empty (some ordersOnly)) = true ∧
     literalBindsOk (sqla_filter (.structured betweenIntFilter) PyDict.empty (some ordersOnly)) = true) ∧
    generate_sql_checked betweenListQuery "postgresql" (some ordersOnly) = none ∧
    sqla_filter (.structured inStrFilter2) PyDict.empty (some ordersOnly) =
      .inList (.bareCol "total") [.sStr "x", .sStr "y"] := by
  refine ⟨?_, ?_, ?_, ?_⟩
  · exact (c10_in_between_lowering PyDict.empty (some ordersOnly) "total"
      (.scalar (.sInt 7))).1 rfl rfl
  · exact (c10_in_between_lowering PyDict.empty (some ordersOnly) "total"
      (.scalar (.sInt 5))).2.1 rfl
  · exact ((c10_in_between_lowering PyDict.empty (some ordersOnly) "total"
      (.list [.sInt 1, .sInt 2, .sInt 3])).2.2.1 [.sInt 1, .sInt 2, .sInt 3] rfl
        (by decide)).2 betweenListQuery "postgresql" (some ordersOnly)
        (List.mem_cons_self _ _)
  · exact (c10_in_between_lowering PyDict.empty (some ordersOnly) "total"
      (.scalar (.sStr "x, y"))).2.2.2 "x, y" rfl (by decide)

end AiRuntime

namespace AiRuntime.SchemaSearch

/-! ## `SchemaNodes.schema_search` (agent/nodes/schema.py, lines 12-117)

The embedding covers the pure search pipeline: vector-result filtering,
keyword/fuzzy matching, intent-table matching, weighted scoring, top-10
selection, FK one-hop expansion (`_expand_with_related_tables`,
agent/nodes/base.py lines 495-519), and the refinement merge with the 25-table
cap.  The embedding-service call is modelled by its output `vraw` (the raw
similar-vector results; an unavailable embedding provider yields `[]`), and
`difflib.SequenceMatcher(None, a, b).ratio()` is an oracle
`ratio : String → String → Rat`.  The `except` fallback path (line 118-126)
concerns exceptions of the external calls and is outside this pure model.
Scores are exact rationals; the floats in the source are sums of the decimal
literals 10.0, 15.0, 25.0 and the similarity inputs, which the witnesses keep
exactly representable. -/

structure VectorResult where
  target_type : String
  similarity : Rat
  table_name : Option String
deriving Repr, DecidableEq

structure SearchInput where
  user_message : String
  is_refinement : Bool
  needs_schema_search : Bool
  relevant_tables_from_intent : List String
  relevant_schema : List Table
  schema_metadata : Schema
deriving Repr

def lowerName (t : Table) : String := lowerStr t.name

/-- `table_by_name = {t["name"].lower(): t for t in all_tables}`. -/
def tableByName (sm : Schema) : PyDict Table :=
  PyDict.ofList (sm.tables.map (fun t => (lowerName t, t)))

/-- `tokens = set(re.findall(r'\w+', user_message.lower()))`; only membership
and existential iteration are used downstream, so first-occurrence order
stands in for the set. -/
def msgTokens (msg : String) : List String :=
  firstDedup (wordRuns (lowerStr msg).data)

/-- Vector results kept for scoring:
`similarity >= 0.5 and target_type == "table"` (schema.py line 41). -/
def vectorFiltered (vraw : List VectorResult) : List VectorResult :=
  vraw.filter (fun r => decide (r.similarity ≥ 1/2) && r.target_type = "table")

/-- Keyword/fuzzy hybrid matches (schema.py lines 44-56): exact token match on
the table name, or some token of length > 2 with `ratio > 0.85`. -/
def keywordMatchesOf (inp : SearchInput) (ratio : String → String → Rat) : List Table :=
  let tokens := msgTokens inp.user_message
  inp.schema_metadata.tables.filter (fun t =>
    let tl := lowerName t
    tokens.contains tl
      || tokens.any (fun tok => decide (tok.length > 2) && decide (ratio tok tl > 17/20)))

/-- Intent-table matches (schema.py lines 59-69): exact lookup by lowercase
name, else the first table whose name fuzzy-matches with `ratio > 0.85`. -/
def intentMatchesOf (inp : SearchInput) (ratio : String → String → Rat) : List Table :=
  let tbn := tableByName inp.schema_metadata
  inp.relevant_tables_from_intent.foldl (fun acc name =>
    match tbn.lookup (lowerStr name) with
    | some t => acc ++ [t]
    | none =>
      match tbn.entries.find? (fun e => decide (ratio (lowerStr name) e.1 > 17/20)) with
      | some e => acc ++ [e.2]
      | none => acc) []

/-- `table_scores[k] = table_scores.get(k, 0) + w`. -/
def addTo (d : PyDict Rat) (k : String) (w : Rat) : PyDict Rat :=
  d.insert k ((d.lookup k).getD 0 + w)

/-- Weighted scoring (schema.py lines 71-89): similarity × 10 per retained
vector result whose metadata names a known table, +15 per keyword match,
+25 per intent match. -/
def tableScores (vres : List VectorResult) (kw im : List Table) (tbn : PyDict Table) :
    PyDict Rat :=
  let s0 := vres.foldl (fun d r =>
    match r.table_name with
    | some n =>
      if n ≠ "" ∧ (tbn.lookup (lowerStr n)).isSome then addTo d n (r.similarity * 10) else d
    | none => d) PyDict.empty
  let s1 := kw.foldl (fun d t => addTo d t.name 15) s0
  im.foldl (fun d t => addTo d t.name 25) s1

def tableScoresOf (inp : SearchInput) (ratio : String → String → Rat)
    (vraw : List VectorResult) : PyDict Rat :=
  tableScores (vectorFiltered vraw) (keywordMatchesOf inp ratio) (intentMatchesOf inp ratio)
    (tableByName inp.schema_metadata)

/-- Stable descending insertion by score (`sorted(..., key=score,
reverse=True)` is stable, preserving dict insertion order among ties). -/
def insertDescBy (x : String × Rat) : List (String × Rat) → List (String × Rat)
  | [] => [x]
  | y :: ys => if y.2 > x.2 then y :: insertDescBy x ys else x :: y :: ys

def sortDescBy (l : List (String × Rat)) : List (String × Rat) :=
  l.foldr insertDescBy []

/-- `_expand_with_related_tables` (agent/nodes/base.py lines 495-519). -/
def expand_with_related_tables (initial all_tables : List Table) (sm : Schema) : List Table :=
  if initial.isEmpty then []
  else
    let tbn := PyDict.ofList (all_tables.map (fun t => (lowerName t, t)))
    (sm.relationships.foldl (fun (st : List String × List Table) rel =>
      let src := lowerStr rel.sourceTable
      let tgt := lowerStr rel.targetTable
      if st.1.contains src ∧ ¬ st.1.contains tgt then
        match tbn.lookup tgt with
        | some t => (st.1 ++ [tgt], st.2 ++ [t])
        | none => st
      else if st.1.contains tgt ∧ ¬ st.1.contains src then
        match tbn.lookup src with
        | some t => (st.1 ++ [src], st.2 ++ [t])
        | none => st
      else st)
      (initial.map lowerName, initial)).2

/-- The candidate set `final_relevant_tables` after scoring, top-10 selection
and FK expansion (schema.py lines 91-99): the set the spec calls `S'`. -/
def candidateTables (inp : SearchInput) (ratio : String → String → Rat)
    (vraw : List VectorResult) : List Table :=
  let tbn := tableByName inp.schema_metadata
  let sorted10 := (sortDescBy (tableScoresOf inp ratio vraw).entries).take 10
  let final0 := sorted10.filterMap (fun p => tbn.lookup (lowerStr p.1))
  if final0.isEmpty then final0
  else expand_with_related_tables final0 inp.schema_metadata.tables inp.schema_metadata

/-- Build a `{name.lower(): table}` dict by consecutive insertion. -/
def buildTableDict (ts : List Table) (d : PyDict Table) : PyDict Table :=
  ts.foldl (fun d t => d.insert (lowerName t) t) d

/-- `schema_search` (schema.py lines 12-117): returns
`(relevant_schema, no_match)`.  The early return for simple refinements
(lines 17-23), the refinement merge capped at 25 (lines 101-108) and the
no-match report (lines 110-111) are all modelled. -/
def schema_search (inp : SearchInput) (ratio : String → String → Rat)
    (vraw : List VectorResult) : List Table × Bool :=
  if inp.relevant_schema ≠ [] ∧ inp.is_refinement = true ∧
     inp.needs_schema_search = false ∧ inp.relevant_tables_from_intent = [] then
    (inp.relevant_schema, false)
  else
    let cands := candidateTables inp ratio vraw
    let final :=
      if inp.is_refinement = true ∧ inp.relevant_schema ≠ [] then
        (buildTableDict cands (buildTableDict inp.relevant_schema PyDict.empty)).values.take 25
      else cands.take 25
    if final.isEmpty then ([], true) else (final, false)

end AiRuntime.SchemaSearch

namespace AiRuntime

theorem PyDict.lookup_insert {α : Type} (d : PyDict α) (k k' : String) (v : α) :
    (d.insert k v).lookup k' = if k' = k then some v else d.lookup k' := by
  obtain ⟨es⟩ := d
  induction es with
  | nil =>
    by_cases h : k' = k
    · subst h
      simp [PyDict.insert, PyDict.insertEntry, PyDict.lookup]
    · have h2 : ¬ k = k' := fun hc => h hc.symm
      simp [PyDict.insert, PyDict.insertEntry, PyDict.lookup, List.find?, h, h2]
  | cons a es ih =>
    by_cases ha : a.1 = k
    · by_cases hk : k' = k
      · subst hk
        simp [PyDict.insert, PyDict.insertEntry, PyDict.lookup, List.find?, ha]
      · have ha' : ¬ a.1 = k' := by rw [ha]; exact fun hc => hk hc.symm
        have hk2 : ¬ k = k' := fun hc => hk hc.symm
        simp [PyDict.insert, PyDict.insertEntry, PyDict.lookup, List.find?, ha, hk, ha', hk2]
    · by_cases hk' : a.1 = k'
      · have hkk : ¬ k' = k := by
          intro hc
          exact ha (by rw [hk', hc])
        simp [PyDict.insert, PyDict.insertEntry, PyDict.lookup, List.find?, ha, hk', hkk]
      · have hskip : (PyDict.mk (a :: es)).lookup k' = (PyDict.mk es).lookup k' := by
          simp [PyDict.lookup, List.find?, hk']
        have hstep : (PyDict.mk (a :: es)).insert k v
            = PyDict.mk (a :: PyDict.insertEntry k v es) := by
          simp [PyDict.insert, PyDict.insertEntry, ha]
        rw [hstep]
        have hskip2 : (PyDict.mk (a :: PyDict.insertEntry k v es)).lookup k'
            = (PyDict.mk (PyDict.insertEntry k v es)).lookup k' := by
          simp [PyDict.lookup, List.find?, hk']
        rw [hskip2]
        rw [show (PyDict.mk (PyDict.insertEntry k v es)) = (PyDict.mk es).insert k v from rfl]
        rw [ih, hskip]

end AiRuntime

namespace AiRuntime.SchemaSearch

theorem addTo_lookup_getD (d : PyDict Rat) (k k' : String) (w : Rat) :
    ((addTo d k w).lookup k').getD 0 = (d.lookup k').getD 0 + (if k' = k then w else 0) := by
  unfold addTo
  rw [PyDict.lookup_insert]
  by_cases h : k' = k
  · subst h; simp
  · simp [h]

/-- Total similarity mass a key receives from the vector-scoring loop. -/
def vecSum (tbn : PyDict Table) (k : String) : List VectorResult → Rat
  | [] => 0
  | r :: rest =>
    (match r.table_name with
     | some n =>
       if (n ≠ "" ∧ (tbn.lookup (lowerStr n)).isSome) ∧ n = k then r.similarity else 0
     | none => 0) + vecSum tbn k rest

theorem vecFold_lookup (l : List VectorResult) (tbn : PyDict Table) (d : PyDict Rat)
    (k : String) :
    ((l.foldl (fun d r =>
        match r.table_name with
        | some n =>
          if n ≠ "" ∧ (tbn.lookup (lowerStr n)).isSome then addTo d n (r.similarity * 10) else d
        | none => d) d).lookup k).getD 0
      = (d.lookup k).getD 0 + 10 * vecSum tbn k l := by
  induction l generalizing d with
  | nil => simp [vecSum]
  | cons r rest ih =>
    rw [List.foldl_cons]
    cases hn : r.table_name with
    | none =>
      dsimp only
      rw [ih]
      simp [vecSum, hn]
    | some n =>
      dsimp only
      by_cases hc : n ≠ "" ∧ (tbn.lookup (lowerStr n)).isSome
      · rw [if_pos hc, ih, addTo_lookup_getD]
        by_cases hk : k = n
        · subst hk
          simp [vecSum, hn, hc]
          ring
        · have hk' : ¬ n = k := fun hc' => hk hc'.symm
          simp [vecSum, hn, hc, hk, hk']
      · rw [if_neg hc, ih]
        have hfalse : ¬ ((n ≠ "" ∧ (tbn.lookup (lowerStr n)).isSome) ∧ n = k) :=
          fun h => hc h.1
        simp only [vecSum, hn, if_neg hfalse]
        ring

theorem wFold_lookup (l : List Table) (d : PyDict Rat) (w : Rat) (k : String) :
    ((l.foldl (fun d t => addTo d t.name w) d).lookup k).getD 0
      = (d.lookup k).getD 0 + w * ((l.map (fun t => t.name)).count k : Rat) := by
  induction l generalizing d with
  | nil => simp
  | cons t rest ih =>
    rw [List.foldl_cons, ih, addTo_lookup_getD]
    by_cases hk : k = t.name
    · subst hk
      simp [List.count_cons]
      ring
    · have hk' : ¬ t.name = k := fun hc => hk hc.symm
      simp [List.count_cons, hk, hk']

/-- C2 (amended): the scoring step of `schema_search` is purely additive in
the three signals — 10 × summed embedding similarity, +15 per keyword match,
+25 per intent match — and takes no input from the carried-over table set of
a refinement turn (carry-over retention happens by merging after scoring, not
by a +1000 score). -/
theorem c2_score_formula (inp : SearchInput) (ratio : String → String → Rat)
    (vraw : List VectorResult) (k : String) :
    ((tableScoresOf inp ratio vraw).lookup k).getD 0
      = 10 * vecSum (tableByName inp.schema_metadata) k (vectorFiltered vraw)
        + 15 * (((keywordMatchesOf inp ratio).map (fun t => t.name)).count k : Rat)
        + 25 * (((intentMatchesOf inp ratio).map (fun t => t.name)).count k : Rat) := by
  unfold tableScoresOf tableScores
  rw [wFold_lookup, wFold_lookup, vecFold_lookup]
  simp [PyDict.lookup, PyDict.empty]

def legacyTable : Table := { name := "legacy" }

def ordersTable : Table := { name := "orders", columns := [{ name := "id" }] }

/-- Refinement turn whose carried-over table `legacy` is matched by no
signal: the orchestrator names `orders` explicitly and the message has no
token longer than two characters, so no fuzzy comparison fires. -/
def c2Input : SearchInput :=
  { user_message := "go",
    is_refinement := true,
    needs_schema_search := true,
    relevant_tables_from_intent := ["orders"],
    relevant_schema := [legacyTable],
    schema_metadata := { tables := [ordersTable, legacyTable] } }

def zeroRatio : String → String → Rat := fun _ _ => 0

/-- C2, counterexample.  On a refinement turn the carried-over table `legacy`
receives no score at all — its key is absent from `table_scores`, rather than
boosted by +1000; it is retained in the final result only by the post-scoring
merge with the previous set. -/
theorem c2_counterexample :
    (tableScoresOf c2Input zeroRatio []).lookup "legacy" = none ∧
    (tableScoresOf c2Input zeroRatio []).keys = ["orders"] ∧
    (schema_search c2Input zeroRatio []).1.map (fun t => t.name) = ["legacy", "orders"] := by
  refine ⟨by decide, by decide, by decide⟩

end AiRuntime.SchemaSearch

namespace AiRuntime

theorem firstDedupAux_cons (s : List String) (a : String) (l : List String) :
    firstDedupAux s (a :: l)
      = if a ∈ s then firstDedupAux s l else a :: firstDedupAux (a :: s) l := rfl

theorem firstDedupAux_congr (s₁ s₂ : List String) (h : ∀ x, x ∈ s₁ ↔ x ∈ s₂)
    (l : List String) : firstDedupAux s₁ l = firstDedupAux s₂ l := by
  induction l generalizing s₁ s₂ with
  | nil => rfl
  | cons a t ih =>
    rw [firstDedupAux_cons, firstDedupAux_cons]
    by_cases ha : a ∈ s₁
    · rw [if_pos ha, if_pos ((h a).mp ha)]
      exact ih s₁ s₂ h
    · rw [if_neg ha, if_neg (fun hc => ha ((h a).mpr hc))]
      congr 1
      exact ih (a :: s₁) (a :: s₂) (fun x => by simp [List.mem_cons, h x])

theorem mem_firstDedupAux (s l : List String) (x : String) :
    x ∈ firstDedupAux s l ↔ x ∈ l ∧ x ∉ s := by
  induction l generalizing s with
  | nil => simp [firstDedupAux]
  | cons a t ih =>
    rw [firstDedupAux_cons]
    by_cases ha : a ∈ s
    · rw [if_pos ha, ih]
      simp only [List.mem_cons]
      constructor
      · rintro ⟨hx, hs⟩; exact ⟨Or.inr hx, hs⟩
      · rintro ⟨hx | hx, hs⟩
        · exact absurd (hx ▸ ha) hs
        · exact ⟨hx, hs⟩
    · rw [if_neg ha]
      simp only [List.mem_cons, ih]
      constructor
      · rintro (rfl | ⟨hx, hs⟩)
        · exact ⟨Or.inl rfl, ha⟩
        · have hs' : x ∉ s := fun hc => hs (by simp [List.mem_cons, hc])
          exact ⟨Or.inr hx, hs'⟩
      · rintro ⟨rfl | hx, hs⟩
        · exact Or.inl rfl
        · by_cases hxa : x = a
          · exact Or.inl hxa
          · refine Or.inr ⟨hx, fun hc => ?_⟩
            rcases hc with h1 | h1
            · exact hxa h1
            · exact hs h1

theorem mem_shift (a : String) (A s : List String) (ha : a ∈ s) (x : String) :
    x ∈ A ++ s ↔ x ∈ (a :: A) ++ s := by
  rw [List.cons_append]
  constructor
  · intro hx
    exact List.mem_cons_of_mem a hx
  · intro hx
    rcases List.mem_cons.mp hx with rfl | h2
    · exact List.mem_append.mpr (Or.inr ha)
    · exact h2

theorem mem_swap (a : String) (A s : List String) (x : String) :
    x ∈ A ++ (a :: s) ↔ x ∈ (a :: A) ++ s := by
  rw [List.cons_append]
  constructor
  · intro hx
    rcases List.mem_append.mp hx with h1 | h1
    · exact List.mem_cons_of_mem a (List.mem_append.mpr (Or.inl h1))
    · rcases List.mem_cons.mp h1 with he | h2
      · exact he ▸ List.mem_cons_self a (A ++ s)
      · exact List.mem_cons_of_mem a (List.mem_append.mpr (Or.inr h2))
  · intro hx
    rcases List.mem_cons.mp hx with rfl | h1
    · exact List.mem_append.mpr (Or.inr (List.mem_cons_self x s))
    · rcases List.mem_append.mp h1 with h2 | h2
      · exact List.mem_append.mpr (Or.inl h2)
      · exact List.mem_append.mpr (Or.inr (List.mem_cons_of_mem a h2))

theorem firstDedupAux_append (A B s : List String) :
    firstDedupAux s (A ++ B) = firstDedupAux s A ++ firstDedupAux (A ++ s) B := by
  induction A generalizing s with
  | nil => simp [firstDedupAux]
  | cons a A' ih =>
    rw [List.cons_append, firstDedupAux_cons, firstDedupAux_cons]
    by_cases ha : a ∈ s
    · rw [if_pos ha, if_pos ha, ih]
      congr 1
      exact firstDedupAux_congr _ _ (mem_shift a A' s ha) B
    · rw [if_neg ha, if_neg ha, ih, List.cons_append]
      congr 2
      exact firstDedupAux_congr _ _ (mem_swap a A' s) B

theorem PyDict.keys_insert {α : Type} (d : PyDict α) (k : String) (v : α) :
    (d.insert k v).keys = if k ∈ d.keys then d.keys else d.keys ++ [k] := by
  obtain ⟨es⟩ := d
  induction es with
  | nil => simp [PyDict.insert, PyDict.insertEntry, PyDict.keys]
  | cons a es ih =>
    by_cases ha : a.1 = k
    · have hk : k ∈ (PyDict.mk (a :: es)).keys := by
        simp [PyDict.keys, ← ha]
      rw [if_pos hk]
      simp [PyDict.insert, PyDict.insertEntry, PyDict.keys, ha]
    · have step : (PyDict.mk (a :: es)).insert k v
        = PyDict.mk (a :: PyDict.insertEntry k v es) := by
        simp [PyDict.insert, PyDict.insertEntry, ha]
      rw [step]
      have ihx := ih
      have hmem : k ∈ (PyDict.mk (a :: es)).keys ↔ k ∈ (PyDict.mk es).keys := by
        simp only [PyDict.keys, List.map_cons, List.mem_cons]
        constructor
        · rintro (hx | hx)
          · exact absurd hx.symm ha
          · exact hx
        · exact fun hx => Or.inr hx
      have hcons : (PyDict.mk (a :: PyDict.insertEntry k v es)).keys
          = a.1 :: (PyDict.mk (PyDict.insertEntry k v es)).keys := by
        simp [PyDict.keys]
      by_cases hk : k ∈ (PyDict.mk es).keys
      · rw [if_pos (hmem.mpr hk)]
        rw [if_pos hk] at ihx
        rw [hcons,
          show (PyDict.mk (PyDict.insertEntry k v es)) = (PyDict.mk es).insert k v from rfl,
          ihx]
        simp [PyDict.keys]
      · rw [if_neg (fun hc => hk (hmem.mp hc))]
        rw [if_neg hk] at ihx
        rw [hcons,
          show (PyDict.mk (PyDict.insertEntry k v es)) = (PyDict.mk es).insert k v from rfl,
          ihx]
        simp [PyDict.keys]

end AiRuntime

namespace AiRuntime.SchemaSearch

theorem buildTableDict_keys (ts : List Table) (d : PyDict Table) :
    (buildTableDict ts d).keys = d.keys ++ firstDedupAux d.keys (ts.map lowerName) := by
  induction ts generalizing d with
  | nil => simp [buildTableDict, firstDedupAux]
  | cons t rest ih =>
    unfold buildTableDict at ih ⊢
    rw [List.foldl_cons, ih, PyDict.keys_insert, List.map_cons, firstDedupAux_cons]
    by_cases hk : lowerName t ∈ d.keys
    · rw [if_pos hk, if_pos hk]
    · rw [if_neg hk, if_neg hk, List.append_assoc]
      congr 1
      show lowerName t :: firstDedupAux (d.keys ++ [lowerName t]) (List.map lowerName rest)
        = lowerName t :: firstDedupAux (lowerName t :: d.keys) (List.map lowerName rest)
      congr 1
      refine firstDedupAux_congr _ _ (fun x => ?_) _
      rw [show (lowerName t :: d.keys : List String)
        = (lowerName t :: d.keys) ++ [] from (List.append_nil _).symm]
      exact mem_swap (lowerName t) d.keys [] x

/-- Every entry of the dict maps the lowercased name of its table. -/
def Keyed (d : PyDict Table) : Prop :=
  ∀ e ∈ d.entries, e.1 = lowerName e.2

theorem keyed_empty : Keyed PyDict.empty := by
  intro e he
  simp [PyDict.empty] at he

theorem keyed_insert (d : PyDict Table) (t : Table) (h : Keyed d) :
    Keyed (d.insert (lowerName t) t) := by
  obtain ⟨es⟩ := d
  intro e he
  simp only [PyDict.insert] at he
  induction es with
  | nil =>
    simp [PyDict.insertEntry] at he
    subst he
    rfl
  | cons a es ih =>
    by_cases ha : a.1 = lowerName t
    · simp only [PyDict.insertEntry, if_pos ha] at he
      rcases List.mem_cons.mp he with rfl | hmem
      · exact ha
      · exact h e (List.mem_cons_of_mem a hmem)
    · simp only [PyDict.insertEntry, if_neg ha] at he
      rcases List.mem_cons.mp he with rfl | hmem
      · exact h a (List.mem_cons_self a es)
      · exact ih (fun e' he' => h e' (List.mem_cons_of_mem a he')) hmem

theorem keyed_buildTableDict (ts : List Table) (d : PyDict Table) (h : Keyed d) :
    Keyed (buildTableDict ts d) := by
  induction ts generalizing d with
  | nil => exact h
  | cons t rest ih =>
    unfold buildTableDict
    rw [List.foldl_cons]
    exact ih _ (keyed_insert d t h)

theorem values_map_lower (d : PyDict Table) (h : Keyed d) :
    d.values.map lowerName = d.keys := by
  unfold PyDict.values PyDict.keys
  rw [List.map_map]
  exact (List.map_congr_left (fun e he => (h e he).symm))

end AiRuntime.SchemaSearch

namespace AiRuntime.SchemaSearch

/-- C9: on a refinement turn with a non-empty prior relevant-table set `S`
(its deduplicated name set within the 25-table cap the scorer itself
guarantees) for which the search runs (`needs_schema_search`), the resulting
set is exactly `S ∪ S'` — previous tables first, new candidates appended,
deduplicated by lowercase name — truncated to 25 tables, reported as a match,
and never loses a table of `S`. -/
theorem c9_refinement_union (inp : SearchInput) (ratio : String → String → Rat)
    (vraw : List VectorResult)
    (href : inp.is_refinement = true)
    (hprev : inp.relevant_schema ≠ [])
    (hneeds : inp.needs_schema_search = true)
    (hsize : (firstDedup (inp.relevant_schema.map lowerName)).length ≤ 25) :
    (schema_search inp ratio vraw).1.map lowerName
        = (firstDedup (inp.relevant_schema.map lowerName
            ++ (candidateTables inp ratio vraw).map lowerName)).take 25 ∧
    (schema_search inp ratio vraw).2 = false ∧
    ∀ n ∈ inp.relevant_schema.map lowerName,
      n ∈ (schema_search inp ratio vraw).1.map lowerName := by
  have hskip : ¬ (inp.relevant_schema ≠ [] ∧ inp.is_refinement = true ∧
      inp.needs_schema_search = false ∧ inp.relevant_tables_from_intent = []) := by
    rintro ⟨-, -, hfalse, -⟩
    rw [hneeds] at hfalse
    cases hfalse
  have hkeyed : Keyed (buildTableDict (candidateTables inp ratio vraw)
      (buildTableDict inp.relevant_schema PyDict.empty)) :=
    keyed_buildTableDict _ _ (keyed_buildTableDict _ _ keyed_empty)
  have hkeys : (buildTableDict (candidateTables inp ratio vraw)
        (buildTableDict inp.relevant_schema PyDict.empty)).keys
      = firstDedupAux [] (inp.relevant_schema.map lowerName
          ++ (candidateTables inp ratio vraw).map lowerName) := by
    rw [buildTableDict_keys, buildTableDict_keys, firstDedupAux_append]
    have he : (PyDict.empty : PyDict Table).keys = [] := rfl
    rw [he, List.nil_append]
    congr 1
    refine firstDedupAux_congr _ _ (fun x => ?_) _
    rw [List.append_nil, mem_firstDedupAux]
    simp
  have hvals : (buildTableDict (candidateTables inp ratio vraw)
        (buildTableDict inp.relevant_schema PyDict.empty)).values.map lowerName
      = (buildTableDict (candidateTables inp ratio vraw)
        (buildTableDict inp.relevant_schema PyDict.empty)).keys :=
    values_map_lower _ hkeyed
  have hkne : (buildTableDict (candidateTables inp ratio vraw)
      (buildTableDict inp.relevant_schema PyDict.empty)).keys ≠ [] := by
    rw [hkeys]
    obtain ⟨t, rest, hp⟩ := List.exists_cons_of_ne_nil hprev
    rw [hp, List.map_cons, List.cons_append, firstDedupAux_cons,
      if_neg (List.not_mem_nil _)]
    exact List.cons_ne_nil _ _
  have hvne : (buildTableDict (candidateTables inp ratio vraw)
      (buildTableDict inp.relevant_schema PyDict.empty)).values ≠ [] := by
    intro hc
    apply hkne
    have : ((buildTableDict (candidateTables inp ratio vraw)
        (buildTableDict inp.relevant_schema PyDict.empty)).values.map lowerName) = [] := by
      rw [hc]; rfl
    rw [hvals] at this
    exact this
  have htne : ((buildTableDict (candidateTables inp ratio vraw)
      (buildTableDict inp.relevant_schema PyDict.empty)).values.take 25) ≠ [] := by
    rw [Ne, List.take_eq_nil_iff]
    rintro (h | h)
    · cases h
    · exact hvne h
  have hempty : ¬ ((buildTableDict (candidateTables inp ratio vraw)
      (buildTableDict inp.relevant_schema PyDict.empty)).values.take 25).isEmpty = true := by
    rw [List.isEmpty_iff]
    exact htne
  have hss : schema_search inp ratio vraw
      = ((buildTableDict (candidateTables inp ratio vraw)
          (buildTableDict inp.relevant_schema PyDict.empty)).values.take 25, false) := by
    unfold schema_search
    rw [if_neg hskip]
    simp only [if_pos (And.intro href hprev), if_neg hempty]
  refine ⟨?_, ?_, ?_⟩
  · rw [hss]
    show ((buildTableDict (candidateTables inp ratio vraw)
        (buildTableDict inp.relevant_schema PyDict.empty)).values.take 25).map lowerName = _
    rw [List.map_take, hvals, hkeys]
    rfl
  · rw [hss]
  · intro n hn
    rw [hss]
    show n ∈ ((buildTableDict (candidateTables inp ratio vraw)
        (buildTableDict inp.relevant_schema PyDict.empty)).values.take 25).map lowerName
    rw [List.map_take, hvals, hkeys, firstDedupAux_append,
      List.take_append_eq_append_take]
    apply List.mem_append_left
    have hlen : (firstDedupAux [] (inp.relevant_schema.map lowerName)).length ≤ 25 := hsize
    rw [List.take_of_length_le hlen]
    rw [mem_firstDedupAux]
    exact ⟨hn, List.not_mem_nil n⟩

theorem c9_witness :
    ((schema_search c2Input zeroRatio []).1.map lowerName
        = (firstDedup (c2Input.relevant_schema.map lowerName
            ++ (candidateTables c2Input zeroRatio []).map lowerName)).take 25) ∧
    (schema_search c2Input zeroRatio []).2 = false ∧
    ∀ n ∈ c2Input.relevant_schema.map lowerName,
      n ∈ (schema_search c2Input zeroRatio []).1.map lowerName :=
  c9_refinement_union c2Input zeroRatio [] rfl (by decide) rfl (by decide)

end AiRuntime.SchemaSearch

/-!  Queryability enforcer (`agent/nodes.py`, `_enforce_queryability`, lines
2453-2648) and the fully-blocked check of `schema_validator` (lines
1380-1406).  The canonical query is the dict structure the enforcer actually
inspects: `primary_table` (name/alias), `joins` (table/alias plus the join
condition, carried through untouched), `columns` (the `column` expression
plus the alias, carried untouched), `filters` (either a raw non-dict entry,
which the enforcer always keeps, or a dict with a `column` key), `group_by`
strings and `order_by` dicts.  The schema dict is its `tables` list. -/

namespace AiRuntime.Enforcer

structure EJoin where
  table : String
  aliasName : String
  onCond : String
deriving Repr, DecidableEq

structure EPrimary where
  name : String
  aliasName : String
deriving Repr, DecidableEq

structure ECol where
  column : String
  aliasName : String
deriving Repr, DecidableEq

inductive EFilter where
  | raw (s : String)
  | dictF (column : String) (value : String)
deriving Repr, DecidableEq

structure EOrder where
  column : String
  direction : String
deriving Repr, DecidableEq

structure CQuery where
  primary_table : EPrimary
  joins : List EJoin
  columns : List ECol
  filters : List EFilter
  group_by : List String
  order_by : List EOrder
deriving Repr, DecidableEq

structure Warning where
  type : String
  entity : String
  message : String
  severity : String
deriving Repr, DecidableEq

/-- `table_queryable = {t['name'].lower(): t.get("isQueryable", True) for t in tables}`
with lookup `table_queryable.get(n, True)`: a dict comprehension keeps the
last binding of a repeated key. -/
def tqLookup (tables : List Table) (n : String) : Bool :=
  match tables.reverse.find? (fun t => decide (lowerStr t.name = n)) with
  | some t => t.isQueryable
  | none => true

/-- `col_queryable`: for each table, each column first binds the qualified
key `t.c` by plain assignment (last wins), then binds the naked key `c` only
if it is not yet present anywhere in the dict (first wins). -/
def colQDict (tables : List Table) : PyDict Bool :=
  tables.foldl (fun d t =>
    t.columns.foldl (fun d c =>
      let qn := lowerStr t.name ++ "." ++ lowerStr c.name
      let cn := lowerStr c.name
      let d1 := d.insert qn c.isQueryable
      match d1.lookup cn with
      | some _ => d1
      | none => d1.insert cn c.isQueryable) d) PyDict.empty

/-- `alias_to_table`: the primary alias (if non-empty) then each join alias
(if non-empty), all lowered, later bindings overwriting earlier ones. -/
def aliasMapOf (cq : CQuery) : PyDict String :=
  let p_name := lowerStr cq.primary_table.name
  let p_alias := lowerStr cq.primary_table.aliasName
  let d0 : PyDict String :=
    if p_alias = "" then PyDict.empty else PyDict.empty.insert p_alias p_name
  cq.joins.foldl (fun d j =>
    let ja := lowerStr j.aliasName
    if ja = "" then d else d.insert ja (lowerStr j.table)) d0

def isQuoteChar (c : Char) : Bool := c = Char.ofNat 96 || c = '\"'

/-- One attempted match of `[`\x22]?(\w+)[`\x22]?\.[`\x22]?(\w+)[`\x22]?` at the head
of `cs` (backtracking of each optional quote resolved statically: a leading
quote is consumed only when what the quote position requires cannot match the
quote itself). On success, returns the two captured word runs and the
remainder after the match. -/
def tryRefAt (cs : List Char) : Option (String × String × List Char) :=
  let cs1 := match cs with
    | c :: c2 :: rest => if isQuoteChar c && isWordChar c2 then c2 :: rest else cs
    | _ => cs
  let w1 := cs1.takeWhile isWordChar
  let r1 := cs1.dropWhile isWordChar
  if w1 = [] then none else
  let r2 : Option (List Char) := match r1 with
    | '.' :: rest => some rest
    | c :: '.' :: rest => if isQuoteChar c then some rest else none
    | _ => none
  match r2 with
  | none => none
  | some r3 =>
    let cs2 := match r3 with
      | c :: c2 :: rest => if isQuoteChar c && isWordChar c2 then c2 :: rest else r3
      | _ => r3
    let w2 := cs2.takeWhile isWordChar
    let r4 := cs2.dropWhile isWordChar
    if w2 = [] then none else
    let r5 := match r4 with
      | c :: rest => if isQuoteChar c then rest else r4
      | [] => r4
    some (String.mk w1, String.mk w2, r5)

/-- `re.findall` scan: try a match at each position, resume after a match,
else advance one character.  `fuel = cs.length` suffices since every step
consumes at least one character. -/
def findRefsAux : Nat → List Char → List (String × String)
  | 0, _ => []
  | _, [] => []
  | Nat.succ fuel, c :: cs =>
    match tryRefAt (c :: cs) with
    | some (t, col, rest) => (t, col) :: findRefsAux fuel rest
    | none => findRefsAux fuel cs

def stripPrefixL : List Char → List Char → Option (List Char)
  | [], cs => some cs
  | _ :: _, [] => none
  | a :: as, c :: cs => if a = c then stripPrefixL as cs else none

/-- Match `re.escape(t) + [`\x22]?\.[`\x22]? + re.escape(col)` at the head of `cs`
(the captured groups are word runs, so escaping is the identity and the
optional-quote backtracking again resolves statically). -/
def matchSubAt (t col : List Char) (cs : List Char) : Option (List Char) :=
  match stripPrefixL t cs with
  | none => none
  | some r1 =>
    let r2 : Option (List Char) := match r1 with
      | '.' :: rest => some rest
      | c :: '.' :: rest => if isQuoteChar c then some rest else none
      | _ => none
    match r2 with
    | none => none
    | some r3 =>
      match r3 with
      | c :: rest => if isQuoteChar c then stripPrefixL col rest else stripPrefixL col (c :: rest)
      | [] => stripPrefixL col []

/-- `re.sub(pattern, " ", s)`: replace every non-overlapping occurrence,
scanning left to right, with a single space. -/
def maskOneAux (t col : List Char) : Nat → List Char → List Char
  | _, [] => []
  | 0, cs => cs
  | Nat.succ fuel, c :: cs =>
    match matchSubAt t col (c :: cs) with
    | some rest => ' ' :: maskOneAux t col fuel rest
    | none => c :: maskOneAux t col fuel cs

/-- The masking loop over all extracted qualified references (duplicates
included, as `re.findall` reports them). -/
def maskRefs (refs : List (String × String)) (cs : List Char) : List Char :=
  refs.foldl (fun acc p => maskOneAux p.1.data p.2.data acc.length acc) cs

def sqlKeywords : List String :=
  ["count", "sum", "avg", "min", "max", "distinct", "as", "select", "from",
   "where", "group", "by", "order", "limit", "and", "or", "in", "between",
   "is", "null", "not", "true", "false", "now", "current_date", "interval",
   "case", "when", "then", "else", "end"]

/-- The closure environment captured by `is_restricted`: the alias map and
column map (built once), the removed-table set and the original primary name
(fixed before the column passes), and the joins list as it stands when the
filtering passes run. -/
structure REnv where
  aliasMap : PyDict String
  colQ : PyDict Bool
  removed : List String
  p_name : String
  joins : List EJoin

def refsCheck (env : REnv) : List (String × String) → Option String
  | [] => none
  | (ta, cn) :: rest =>
    let tReal := (env.aliasMap.lookup ta).getD ta
    if tReal ∈ env.removed then some "table_removed"
    else if (env.colQ.lookup (tReal ++ "." ++ cn)).getD true = false then
      some "column_restricted"
    else refsCheck env rest

def wordsCheck (env : REnv) : List String → Option String
  | [] => none
  | w :: rest =>
    if w ∈ sqlKeywords then wordsCheck env rest
    else if (match env.aliasMap.lookup w with
             | some t => decide (t ∈ env.removed)
             | none => false) then some "table_removed"
    else
      let ptReal := (env.aliasMap.lookup env.p_name).getD env.p_name
      if env.colQ.lookup (ptReal ++ "." ++ w) = some false then
        some "column_restricted"
      else if env.joins.any
          (fun j => env.colQ.lookup (lowerStr j.table ++ "." ++ w) == some false) then
        some "column_restricted"
      else wordsCheck env rest

def is_restricted (env : REnv) (expression : String) : Bool × Option String :=
  if expression = "" then (false, none)
  else
    let exprLower := lowerStr expression
    let refs := findRefsAux exprLower.length exprLower.data
    match refsCheck env refs with
    | some r => (true, some r)
    | none =>
      let masked := maskRefs refs exprLower.data
      match wordsCheck env (wordRuns masked) with
      | some r => (true, some r)
      | none => (false, none)

/-- Step 3 primary swap: scan the joins once, promoting the first queryable
join to primary; every other join (queryable or not) goes to the remaining
list.  When no join is queryable the query is left untouched. -/
def promoteScan (tq : String → Bool) : List EJoin → Option EPrimary × List EJoin
  | [] => (none, [])
  | j :: rest =>
    if tq (lowerStr j.table) then (some ⟨j.table, j.aliasName⟩, rest)
    else
      let pr := promoteScan tq rest
      (pr.1, j :: pr.2)

def warnTable (n : String) : Warning :=
  ⟨"non_queryable_table", n,
   "Table '" ++ n ++ "' is marked as non-queryable and has been removed from the query.",
   "warning"⟩

def warnCol (c : String) : Warning :=
  ⟨"non_queryable_column", c,
   "Column '" ++ c ++ "' is marked as non-queryable and has been removed from the results.",
   "warning"⟩

/-- Step 3 of `_enforce_queryability`: check the primary table; on a
non-queryable primary, warn, record it as removed, and swap in the first
queryable join if one exists. Returns (query, removed names, warnings). -/
def enforceStep3 (tq : String → Bool) (cq : CQuery) :
    CQuery × List String × List Warning :=
  let p_name := lowerStr cq.primary_table.name
  if tq p_name then (cq, [], [])
  else
    match promoteScan tq cq.joins with
    | (some np, rem) =>
      ({ cq with primary_table := np, joins := rem }, [p_name], [warnTable p_name])
    | (none, _) => (cq, [p_name], [warnTable p_name])

def keepCol (env : REnv) (c : ECol) : Bool := !(is_restricted env c.column).1

def keepFilter (env : REnv) : EFilter → Bool
  | EFilter.raw _ => true
  | EFilter.dictF c _ => !(is_restricted env c).1

def keepGB (env : REnv) (g : String) : Bool := !(is_restricted env g).1

def keepOB (env : REnv) (o : EOrder) : Bool := !(is_restricted env o.column).1

/-- `_enforce_queryability` (steps 1-7).  The `is_restricted` environment
fixes the alias map built from the ORIGINAL query, the removed-table set
accumulated in steps 3-4, the ORIGINAL primary name `p_name`, and the
post-step-4 joins list. -/
def enforce (cq : CQuery) (tables : List Table) : CQuery × List Warning :=
  let tq := tqLookup tables
  let s3 := enforceStep3 tq cq
  let q1 := s3.1
  let keptJoins := q1.joins.filter (fun j => tq (lowerStr j.table))
  let removedJ := (q1.joins.filter (fun j => !(tq (lowerStr j.table)))).map
    (fun j => lowerStr j.table)
  let env : REnv :=
    ⟨aliasMapOf cq, colQDict tables, s3.2.1 ++ removedJ,
     lowerStr cq.primary_table.name, keptJoins⟩
  ({ primary_table := q1.primary_table
   , joins := keptJoins
   , columns := q1.columns.filter (keepCol env)
   , filters := q1.filters.filter (keepFilter env)
   , group_by := q1.group_by.filter (keepGB env)
   , order_by := q1.order_by.filter (keepOB env) },
   s3.2.2 ++ removedJ.map warnTable
     ++ (q1.columns.filter (fun c => (is_restricted env c.column).1
          && !((is_restricted env c.column).2 == some "table_removed"))).map
        (fun c => warnCol c.column))

def notAccessibleMsg (p : String) : String :=
  "The table '" ++ p ++ "' is not accessible."

def blockedResponse (p : String) : String :=
  "I'm sorry, but I'm not allowed to access the data in the '" ++ p ++
    "' table per organization policy. Please ask about other available information."

/-- The fully-blocked check of `schema_validator` (nodes.py 1381-1406): after
enforcement, if the (possibly swapped) primary table is still non-queryable,
return the distinct policy-denial outcome `(error, final_response)`;
otherwise proceed (`none`). -/
def schema_validator_check (cq : CQuery) (tables : List Table) :
    Option (String × String) :=
  let p_name := lowerStr (enforce cq tables).1.primary_table.name
  if tqLookup tables p_name then none
  else some (notAccessibleMsg p_name, blockedResponse p_name)

end AiRuntime.Enforcer

namespace AiRuntime.Enforcer

/-- The `is_restricted` environment of a run in which no table is removed:
empty removed set, original alias map, original primary, all joins kept. -/
def baseEnv (cq : CQuery) (tables : List Table) : REnv :=
  ⟨aliasMapOf cq, colQDict tables, [], lowerStr cq.primary_table.name, cq.joins⟩

/-- The pure filtering part of the enforcer under a fixed environment. -/
def enforcePure (env : REnv) (cq : CQuery) : CQuery :=
  { primary_table := cq.primary_table
  , joins := cq.joins
  , columns := cq.columns.filter (keepCol env)
  , filters := cq.filters.filter (keepFilter env)
  , group_by := cq.group_by.filter (keepGB env)
  , order_by := cq.order_by.filter (keepOB env) }

theorem filter_twice {α : Type} (p : α → Bool) (l : List α) :
    (l.filter p).filter p = l.filter p := by
  induction l with
  | nil => rfl
  | cons a l ih =>
    cases h : p a
    · simp [List.filter_cons, h, ih]
    · simp [List.filter_cons, h, ih]

theorem enforcePure_idem (env : REnv) (cq : CQuery) :
    enforcePure env (enforcePure env cq) = enforcePure env cq := by
  simp only [enforcePure, filter_twice]

theorem enforce_fst_no_removal (cq : CQuery) (tables : List Table)
    (hp : tqLookup tables (lowerStr cq.primary_table.name) = true)
    (hj : ∀ j ∈ cq.joins, tqLookup tables (lowerStr j.table) = true) :
    (enforce cq tables).1 = enforcePure (baseEnv cq tables) cq := by
  have hs3 : enforceStep3 (tqLookup tables) cq = (cq, [], []) := by
    simp only [enforceStep3]
    rw [if_pos hp]
  have hkept : cq.joins.filter (fun j => tqLookup tables (lowerStr j.table)) = cq.joins :=
    List.filter_eq_self.mpr hj
  have hrem : cq.joins.filter (fun j => !(tqLookup tables (lowerStr j.table))) = [] := by
    simp only [List.filter_eq_nil_iff]
    intro j hjm
    simp [hj j hjm]
  simp only [enforce, hs3, hkept, hrem, enforcePure, baseEnv, List.map_nil,
    List.nil_append, List.append_nil]

end AiRuntime.Enforcer

namespace AiRuntime.Enforcer

def pTable : Table := { name := "p", isQueryable := false, columns := [] }

def jTable : Table :=
  { name := "j", isQueryable := true,
    columns := [{ name := "w", type := "varchar", isQueryable := false }] }

def c6Query : CQuery :=
  { primary_table := ⟨"p", ""⟩
  , joins := [⟨"j", "", ""⟩]
  , columns := [⟨"w", ""⟩]
  , filters := [], group_by := [], order_by := [] }

def c6wQuery : CQuery :=
  { primary_table := ⟨"j", ""⟩
  , joins := []
  , columns := [⟨"w", ""⟩]
  , filters := [], group_by := [], order_by := [] }

/-- C6: the enforcer is NOT idempotent.  Schema: table `p` non-queryable,
table `j` queryable with a non-queryable column `w`.  Query: primary `p`,
one join on `j`, selecting the naked column `w`.  The first pass promotes
`j` to primary but its naked-column check still validates `w` against the
OLD primary name `p` and the post-promotion (empty) joins list, so `w`
survives; the second pass checks `w` against the promoted primary `j`,
finds `j.w` restricted, and drops it. -/
theorem c6_counterexample :
    (enforce (enforce c6Query [pTable, jTable]).1 [pTable, jTable]).1
      ≠ (enforce c6Query [pTable, jTable]).1 ∧
    (enforce c6Query [pTable, jTable]).1.columns = [⟨"w", ""⟩] ∧
    (enforce (enforce c6Query [pTable, jTable]).1 [pTable, jTable]).1.columns = [] := by
  decide

/-- C6 (amended): the enforcer is idempotent on every query from which it
removes no table — i.e. whenever the primary table and all joined tables are
queryable.  (With a non-queryable primary, promotion breaks idempotence, as
the naked-column check of the first pass still runs against the old primary
and the pre-promotion join list.) -/
theorem c6_enforce_idempotent_of_no_table_removed (cq : CQuery) (tables : List Table)
    (hp : tqLookup tables (lowerStr cq.primary_table.name) = true)
    (hj : ∀ j ∈ cq.joins, tqLookup tables (lowerStr j.table) = true) :
    (enforce (enforce cq tables).1 tables).1 = (enforce cq tables).1 := by
  have h1 := enforce_fst_no_removal cq tables hp hj
  have hp2 : tqLookup tables (lowerStr (enforce cq tables).1.primary_table.name) = true := by
    rw [h1]; exact hp
  have hj2 : ∀ j ∈ (enforce cq tables).1.joins,
      tqLookup tables (lowerStr j.table) = true := by
    rw [h1]; exact hj
  have h2 := enforce_fst_no_removal (enforce cq tables).1 tables hp2 hj2
  rw [h2, h1]
  have hbe : baseEnv (enforcePure (baseEnv cq tables) cq) tables = baseEnv cq tables := rfl
  rw [hbe]
  exact enforcePure_idem _ _

theorem c6_witness :
    tqLookup [pTable, jTable] (lowerStr c6wQuery.primary_table.name) = true ∧
    (∀ j ∈ c6wQuery.joins, tqLookup [pTable, jTable] (lowerStr j.table) = true) ∧
    (enforce (enforce c6wQuery [pTable, jTable]).1 [pTable, jTable]).1
      = (enforce c6wQuery [pTable, jTable]).1 :=
  ⟨by decide, by decide,
   c6_enforce_idempotent_of_no_table_removed c6wQuery [pTable, jTable]
     (by decide) (by decide)⟩

end AiRuntime.Enforcer

namespace AiRuntime.Enforcer

theorem promoteScan_none (tq : String → Bool) (joins : List EJoin)
    (h : ∀ j ∈ joins, tq (lowerStr j.table) = false) :
    promoteScan tq joins = (none, joins) := by
  induction joins with
  | nil => rfl
  | cons j rest ih =>
    have hj : tq (lowerStr j.table) = false := h j (List.mem_cons_self j rest)
    have hr := ih (fun x hx => h x (List.mem_cons_of_mem j hx))
    simp only [promoteScan, hj, Bool.false_eq_true, if_false, hr]

theorem promoteScan_some (tq : String → Bool) (joins : List EJoin) (j0 : EJoin)
    (hfind : joins.find? (fun j => tq (lowerStr j.table)) = some j0) :
    ∃ pre post, joins = pre ++ j0 :: post ∧
      (∀ x ∈ pre, tq (lowerStr x.table) = false) ∧
      promoteScan tq joins = (some ⟨j0.table, j0.aliasName⟩, pre ++ post) := by
  induction joins with
  | nil => cases hfind
  | cons j rest ih =>
    cases hj : tq (lowerStr j.table) with
    | true =>
      simp only [List.find?, hj] at hfind
      have hjj : j = j0 := by injection hfind
      subst hjj
      refine ⟨[], rest, rfl, fun x hx => absurd hx (List.not_mem_nil x), ?_⟩
      simp only [promoteScan, hj, if_true, List.nil_append]
    | false =>
      simp only [List.find?, hj] at hfind
      obtain ⟨pre, post, he, hpre, hps⟩ := ih hfind
      refine ⟨j :: pre, post, by rw [he, List.cons_append], ?_, ?_⟩
      · intro x hx
        rcases List.mem_cons.mp hx with hx | hx
        · rw [hx]; exact hj
        · exact hpre x hx
      · simp only [promoteScan, hj, Bool.false_eq_true, if_false, hps, List.cons_append]

/-- C7: with a non-queryable primary table, the enforcer promotes the first
queryable joined table (in join order) to primary and removes it from the
joins (the non-queryable joins ahead of it being dropped by the join filter),
after which the schema validator does not block; and when no joined table is
queryable either, the primary and joins are left to be fully stripped
(joins empty) and the schema validator returns the distinct policy-denial
outcome carrying its specific user-facing message, not a generic error. -/
theorem c7_promotion_and_blocked (cq : CQuery) (tables : List Table)
    (hp : tqLookup tables (lowerStr cq.primary_table.name) = false) :
    (∀ j0 : EJoin,
      cq.joins.find? (fun j => tqLookup tables (lowerStr j.table)) = some j0 →
      (enforce cq tables).1.primary_table = ⟨j0.table, j0.aliasName⟩ ∧
      (∃ pre post, cq.joins = pre ++ j0 :: post ∧
        (∀ x ∈ pre, tqLookup tables (lowerStr x.table) = false) ∧
        (enforce cq tables).1.joins
          = post.filter (fun j => tqLookup tables (lowerStr j.table))) ∧
      schema_validator_check cq tables = none) ∧
    ((∀ j ∈ cq.joins, tqLookup tables (lowerStr j.table) = false) →
      (enforce cq tables).1.primary_table = cq.primary_table ∧
      (enforce cq tables).1.joins = [] ∧
      schema_validator_check cq tables
        = some (notAccessibleMsg (lowerStr cq.primary_table.name),
                blockedResponse (lowerStr cq.primary_table.name))) := by
  have hpneg : ¬ (tqLookup tables (lowerStr cq.primary_table.name) = true) := by
    rw [hp]; exact Bool.false_ne_true
  constructor
  · intro j0 hfind
    obtain ⟨pre, post, he, hpre, hps⟩ := promoteScan_some _ _ _ hfind
    have hs3 : enforceStep3 (tqLookup tables) cq
        = ({ cq with primary_table := ⟨j0.table, j0.aliasName⟩, joins := pre ++ post },
           [lowerStr cq.primary_table.name],
           [warnTable (lowerStr cq.primary_table.name)]) := by
      simp only [enforceStep3]
      rw [if_neg hpneg, hps]
    have hprefilter : pre.filter (fun j => tqLookup tables (lowerStr j.table)) = [] := by
      simp only [List.filter_eq_nil_iff]
      intro x hx
      simp [hpre x hx]
    have hq : tqLookup tables (lowerStr j0.table) = true := by
      have h := List.find?_some hfind
      simpa using h
    refine ⟨?_, ⟨pre, post, he, hpre, ?_⟩, ?_⟩
    · simp only [enforce, hs3]
    · simp only [enforce, hs3, List.filter_append, hprefilter, List.nil_append]
    · simp only [schema_validator_check, enforce, hs3]
      rw [if_pos hq]
  · intro hall
    have hps := promoteScan_none (tqLookup tables) cq.joins hall
    have hs3 : enforceStep3 (tqLookup tables) cq
        = (cq, [lowerStr cq.primary_table.name],
           [warnTable (lowerStr cq.primary_table.name)]) := by
      simp only [enforceStep3]
      rw [if_neg hpneg, hps]
    have hjfilter : cq.joins.filter (fun j => tqLookup tables (lowerStr j.table)) = [] := by
      simp only [List.filter_eq_nil_iff]
      intro x hx
      simp [hall x hx]
    refine ⟨?_, ?_, ?_⟩
    · simp only [enforce, hs3]
    · simp only [enforce, hs3, hjfilter]
    · simp only [schema_validator_check, enforce, hs3]
      rw [if_neg hpneg]

def c7bQuery : CQuery :=
  { primary_table := ⟨"p", ""⟩
  , joins := []
  , columns := [], filters := [], group_by := [], order_by := [] }

theorem c7_witness :
    (enforce c6Query [pTable, jTable]).1.primary_table = ⟨"j", ""⟩ ∧
    schema_validator_check c6Query [pTable, jTable] = none ∧
    schema_validator_check c7bQuery [pTable, jTable]
      = some (notAccessibleMsg (lowerStr c7bQuery.primary_table.name),
              blockedResponse (lowerStr c7bQuery.primary_table.name)) := by
  have h1 := (c7_promotion_and_blocked c6Query [pTable, jTable] (by decide)).1
    ⟨"j", "", ""⟩ (by decide)
  have h2 := (c7_promotion_and_blocked c7bQuery [pTable, jTable] (by decide)).2
    (by decide)
  exact ⟨h1.1, h1.2.2, h2.2.2⟩

end AiRuntime.Enforcer
